import Mathlib

/-!
# Verification of the chainlib-rs transaction-signing core

Shallow embedding of the parts of chainlib-rs that the specification's
claims are about: monetary amounts (`src/types/basic.rs`), the bech32
address codec (`src/types/address.rs`, `src/key_service.rs`), the amino
transaction builder and its canonical-JSON sign document
(`src/tx_builder/amino.rs`, `src/tx_builder.rs`, `src/types/signature.rs`),
the hardware-device signing protocol (`src/ledger_app.rs`,
`src/utils/ledger_crypto.rs`), and the protobuf transaction builder
(`src/tx_builder/grpc.rs`).

Machine integers are modelled as `Nat` with explicit reduction modulo
`2 ^ 64` at the points where Rust release-mode arithmetic wraps.  Byte
strings are `List Nat` with every element `< 256`, and 5-bit bech32
groups are `List Nat` with every element `< 32`.
-/

set_option maxRecDepth 8000
set_option linter.unusedVariables false

/-! ## Basic monetary types (src/types/basic.rs) -/

/-- Modelled from the spec: the CRO scale factor.  The `config` /
`constant` module that declares this constant is not among the provided
sources; spec §3 fixes it ("a major unit input is multiplied by a fixed
scale factor (10^8)"), as does the comment in `src/types/basic.rs`
("1Cro = 100_000_000 Basecro"). -/
def CRO : Nat := 100000000

/-- One beyond the largest `u64` value; Rust `u64` arithmetic that wraps
in release mode is modelled by reducing modulo this constant. -/
def U64MOD : Nat := 2 ^ 64

/-- Broadcast sync mode (src/types/basic.rs). -/
inductive SyncMode
  | sync
  | async
  | block
deriving DecidableEq, Repr

/-- Denomination (src/types/basic.rs): 1 Cro = 100_000_000 Basecro. -/
inductive Denom
  | basecro
  | cro
deriving DecidableEq, Repr

/-- A monetary amount (src/types/basic.rs). -/
structure Amount where
  denom : Denom
  amount : Nat
deriving DecidableEq, Repr

/-- `Amount::new` (src/types/basic.rs lines 32-41): a `Cro` input is
scaled by `CRO` (u64 multiplication, modelled with release-mode
wrapping), a `Basecro` input is kept as is, and the result always
carries the `Basecro` denomination. -/
def Amount.new (amount : Nat) (denom : Denom) : Amount :=
  let a :=
    match denom with
    | Denom.basecro => amount
    | Denom.cro => (amount * CRO) % U64MOD
  { denom := Denom.basecro, amount := a }

/-- Transaction fee (src/types/basic.rs). -/
structure Fee where
  gas : Nat
  amount : List Amount
deriving DecidableEq, Repr

/-- `C2`: for every u64 value `n`, `Amount::new (n, Cro)` equals
`Amount::new (n * 100_000_000, Basecro)` (the multiplication taken in
u64 arithmetic), and every amount produced by `Amount::new` carries the
`Basecro` denomination regardless of the input denomination. -/
theorem amount_new_normalizes (n : Nat) (hn : n < U64MOD) :
    Amount.new n Denom.cro = Amount.new ((n * 100000000) % U64MOD) Denom.basecro ∧
    ∀ m d, (Amount.new m d).denom = Denom.basecro := by
  constructor
  · simp [Amount.new, CRO]
  · intro m d
    cases d <;> rfl

/-- Witness for `C2` at the concrete input `n = 3`. -/
theorem amount_new_normalizes_witness :
    (3 : Nat) < U64MOD ∧
      Amount.new 3 Denom.cro = Amount.new ((3 * 100000000) % U64MOD) Denom.basecro ∧
      (Amount.new 7 Denom.cro).denom = Denom.basecro := by
  refine ⟨by decide, (amount_new_normalizes 3 (by decide)).1, ?_⟩
  exact (amount_new_normalizes 3 (by decide)).2 7 Denom.cro

/-! ## Device transport protocol (src/ledger_app.rs, src/utils/ledger_crypto.rs) -/

/-- Errors of the validator-app provider (src/utils/ledger_crypto.rs lines 30-61). -/
inductive LedgerCryptoError
  | invalidEmptyMessage
  | invalidMessageSize
  | noSignature
  | invalidSignature
deriving DecidableEq, Repr

/-- Errors of the Crypto-app wrapper surfaced by `CryptoApp::sign`
(src/ledger_app.rs, error type from `ledger_zondax_generic`). -/
inductive LedgerAppError
  | noSignature
  | invalidSignature
  | invalidPK
deriving DecidableEq, Repr

/-- One APDU command packet (fields of `ledger::ApduCommand`). -/
structure ApduPacket where
  cla : Nat
  ins : Nat
  p1 : Nat
  p2 : Nat
  data : List Nat
deriving DecidableEq, Repr

/-- `USER_MESSAGE_CHUNK_SIZE` (src/utils/ledger_crypto.rs line 28). -/
def USER_MESSAGE_CHUNK_SIZE : Nat := 250

/-- Rust `message.chunks(250)`: successive sublists of length 250, the
last one possibly shorter; the empty message yields no chunks. -/
def chunks250 (l : List Nat) : List (List Nat) :=
  if h : l = [] then []
  else l.take 250 :: chunks250 (l.drop 250)
termination_by l.length
decreasing_by
  simp only [List.length_drop]
  have : 0 < l.length := List.length_pos.mpr h
  omega

/-- `SIGNATURE_LEN` (src/ledger_app.rs line 22). -/
def SIGNATURE_LEN : Nat := 65

/-- The APDU success status code `0x9000`. -/
def APDU_NO_ERROR : Nat := 0x9000

/-- The packet sequence of `CosmosValidatorApp::sign`
(src/utils/ledger_crypto.rs lines 165-194): the message is split into
250-byte chunks; more than 255 chunks is `InvalidMessageSize`, zero
chunks is `InvalidEmptyMessage` (both raised before any packet is
sent), and otherwise one packet per chunk is sent with `p1` the 1-based
packet index and `p2` the packet count. -/
def cosmosSignPackets (message : List Nat) :
    Except LedgerCryptoError (List ApduPacket) :=
  let cks := chunks250 message
  if cks.length > 255 then Except.error LedgerCryptoError.invalidMessageSize
  else if cks.length = 0 then Except.error LedgerCryptoError.invalidEmptyMessage
  else Except.ok (cks.enum.map fun ic =>
    { cla := 0x56, ins := 0x02, p1 := ic.1 + 1, p2 := cks.length, data := ic.2 })

/-- The final-response classification of `CosmosValidatorApp::sign`
(src/utils/ledger_crypto.rs lines 196-208): an empty payload together
with the success code is `NoSignature`; otherwise a payload whose
length is not exactly 64 is `InvalidSignature`; otherwise the 64-byte
payload is the signature. -/
def cosmosSignResult (retcode : Nat) (data : List Nat) :
    Except LedgerCryptoError (List Nat) :=
  if data.length = 0 ∧ retcode = APDU_NO_ERROR then
    Except.error LedgerCryptoError.noSignature
  else if data.length ≠ 64 then Except.error LedgerCryptoError.invalidSignature
  else Except.ok data

/-- The final-response classification of `CryptoApp::sign`
(src/ledger_app.rs lines 143-157): an empty payload together with the
success code is `NoSignature`; otherwise a payload shorter than
`SIGNATURE_LEN = 65` is `InvalidSignature`; otherwise the first 65
bytes are the signature. -/
def cryptoAppSignResult (retcode : Nat) (data : List Nat) :
    Except LedgerAppError (List Nat) :=
  if data = [] ∧ retcode = APDU_NO_ERROR then
    Except.error LedgerAppError.noSignature
  else if data.length < SIGNATURE_LEN then
    Except.error LedgerAppError.invalidSignature
  else Except.ok (data.take SIGNATURE_LEN)

/-- A list of exactly 250 elements forms a single chunk. -/
theorem chunks250_of_length_eq (l : List Nat) (h : l.length = 250) :
    chunks250 l = [l] := by
  have hne : l ≠ [] := by
    intro hnil
    rw [hnil] at h
    simp at h
  rw [chunks250, dif_neg hne]
  have hdrop : l.drop 250 = [] := List.drop_eq_nil_of_le (by omega)
  rw [List.take_of_length_le (by omega), hdrop, chunks250]
  simp

/-- A list of exactly 251 elements forms two chunks. -/
theorem chunks250_of_length_succ (l : List Nat) (h : l.length = 251) :
    chunks250 l = [l.take 250, l.drop 250] := by
  have hne : l ≠ [] := by
    intro hnil
    rw [hnil] at h
    simp at h
  rw [chunks250, dif_neg hne]
  have hlen : (l.drop 250).length = 1 := by
    simp [List.length_drop, h]
  have hne2 : l.drop 250 ≠ [] := by
    intro hnil
    rw [hnil] at hlen
    simp at hlen
  rw [chunks250, dif_neg hne2]
  have hd2 : (l.drop 250).drop 250 = [] := List.drop_eq_nil_of_le (by omega)
  have ht2 : (l.drop 250).take 250 = l.drop 250 := List.take_of_length_le (by omega)
  rw [ht2, hd2, chunks250]
  simp

/-- `C8`: with chunk size 250, a 250-byte message is sent as exactly one
packet, a 251-byte message as exactly two packets, and the empty message
is rejected with `InvalidEmptyMessage` (no packet is built). -/
theorem cosmos_sign_chunking (msg : List Nat) :
    (msg.length = 250 →
      cosmosSignPackets msg = Except.ok
        [{ cla := 0x56, ins := 0x02, p1 := 1, p2 := 1, data := msg }]) ∧
    (msg.length = 251 →
      cosmosSignPackets msg = Except.ok
        [{ cla := 0x56, ins := 0x02, p1 := 1, p2 := 2, data := msg.take 250 },
         { cla := 0x56, ins := 0x02, p1 := 2, p2 := 2, data := msg.drop 250 }]) ∧
    (msg = [] →
      cosmosSignPackets msg = Except.error LedgerCryptoError.invalidEmptyMessage) := by
  refine ⟨?_, ?_, ?_⟩
  · intro h
    simp [cosmosSignPackets, chunks250_of_length_eq msg h, List.enum]
  · intro h
    simp [cosmosSignPackets, chunks250_of_length_succ msg h, List.enum]
  · intro h
    subst h
    rw [cosmosSignPackets]
    simp [chunks250]

/-- Witness for `C8` at concrete messages of length 250, 251 and 0. -/
theorem cosmos_sign_chunking_witness :
    cosmosSignPackets (List.replicate 250 7) = Except.ok
      [{ cla := 0x56, ins := 0x02, p1 := 1, p2 := 1, data := List.replicate 250 7 }] ∧
    cosmosSignPackets (List.replicate 251 7) = Except.ok
      [{ cla := 0x56, ins := 0x02, p1 := 1, p2 := 2,
         data := (List.replicate 251 7).take 250 },
       { cla := 0x56, ins := 0x02, p1 := 2, p2 := 2,
         data := (List.replicate 251 7).drop 250 }] ∧
    cosmosSignPackets [] = Except.error LedgerCryptoError.invalidEmptyMessage := by
  refine ⟨?_, ?_, ?_⟩
  · exact (cosmos_sign_chunking (List.replicate 250 7)).1 (by simp)
  · exact (cosmos_sign_chunking (List.replicate 251 7)).2.1 (by simp)
  · exact (cosmos_sign_chunking []).2.2 rfl

/-- `C5`: in the hardware-device sign operation, a final response with
the success status code and an empty payload fails with `NoSignature`,
a non-empty final payload shorter than the fixed signature length fails
with `InvalidSignature`, and a signature is returned only when the
payload reaches the fixed signature length (65 bytes for `CryptoApp`,
64 bytes for `CosmosValidatorApp`). -/
theorem device_sign_response_classification :
    (∀ rc data, data = [] → rc = APDU_NO_ERROR →
      cryptoAppSignResult rc data = Except.error LedgerAppError.noSignature) ∧
    (∀ rc (data : List Nat), data ≠ [] → data.length < SIGNATURE_LEN →
      cryptoAppSignResult rc data = Except.error LedgerAppError.invalidSignature) ∧
    (∀ rc data sig, cryptoAppSignResult rc data = Except.ok sig →
      SIGNATURE_LEN ≤ data.length) ∧
    (∀ rc data, data = [] → rc = APDU_NO_ERROR →
      cosmosSignResult rc data = Except.error LedgerCryptoError.noSignature) ∧
    (∀ rc (data : List Nat), data ≠ [] → data.length < 64 →
      cosmosSignResult rc data = Except.error LedgerCryptoError.invalidSignature) ∧
    (∀ rc data sig, cosmosSignResult rc data = Except.ok sig →
      64 ≤ data.length) := by
  refine ⟨?_, ?_, ?_, ?_, ?_, ?_⟩
  · intro rc data h1 h2
    simp [cryptoAppSignResult, h1, h2]
  · intro rc data h1 h2
    rw [cryptoAppSignResult, if_neg (by simp [h1]), if_pos h2]
  · intro rc data sig h
    rw [cryptoAppSignResult] at h
    split_ifs at h
    omega
  · intro rc data h1 h2
    simp [cosmosSignResult, h1, h2]
  · intro rc data h1 h2
    have h0 : data.length ≠ 0 := by
      intro hc
      exact h1 (List.eq_nil_of_length_eq_zero hc)
    rw [cosmosSignResult, if_neg (by simp [h0]), if_pos (by omega)]
  · intro rc data sig h
    rw [cosmosSignResult] at h
    split_ifs at h
    omega

/-- Witness for `C5` at concrete final responses. -/
theorem device_sign_response_classification_witness :
    cryptoAppSignResult APDU_NO_ERROR [] = Except.error LedgerAppError.noSignature ∧
    cryptoAppSignResult APDU_NO_ERROR [1, 2, 3] =
      Except.error LedgerAppError.invalidSignature ∧
    SIGNATURE_LEN ≤ (List.replicate 65 (9 : Nat)).length ∧
    cosmosSignResult APDU_NO_ERROR [] = Except.error LedgerCryptoError.noSignature ∧
    cosmosSignResult APDU_NO_ERROR [1, 2, 3] =
      Except.error LedgerCryptoError.invalidSignature ∧
    64 ≤ (List.replicate 64 (9 : Nat)).length := by
  refine ⟨?_, ?_, ?_, ?_, ?_, ?_⟩
  · exact device_sign_response_classification.1 APDU_NO_ERROR [] rfl rfl
  · exact device_sign_response_classification.2.1 APDU_NO_ERROR [1, 2, 3]
      (by decide) (by decide)
  · exact device_sign_response_classification.2.2.1 APDU_NO_ERROR
      (List.replicate 65 9) ((List.replicate 65 9).take 65) rfl
  · exact device_sign_response_classification.2.2.2.1 APDU_NO_ERROR [] rfl rfl
  · exact device_sign_response_classification.2.2.2.2.1 APDU_NO_ERROR [1, 2, 3]
      (by decide) (by decide)
  · exact device_sign_response_classification.2.2.2.2.2 APDU_NO_ERROR
      (List.replicate 64 9) (List.replicate 64 9) rfl

/-! ## Canonical JSON sign documents (amino path)

`TransferBuilder::sign` (src/tx_builder/amino.rs lines 76-102 and
src/tx_builder.rs lines 75-99) and `SignDoc::encode`
(src/types/signature.rs lines 28-36) serialize the sign document with
`serde_json::to_value`, render it with `sorted_json::to_json` (which
sorts all object keys recursively and pretty-prints), and then run
`.replace("\n", "").replace(" ", "")` on the rendered string.  Since the
pretty-printer's formatting consists solely of space and newline
characters, the composition is modelled as a compact
sorted-keys rendering followed by removal of every space and newline
character from the whole string - including characters inside JSON
string literals, which is exactly what the two `replace` calls do. -/

mutual
/-- JSON values as produced by `serde_json::to_value` for the amino sign
document: every leaf is a string, because the numeric fields are
rendered as decimal strings by `serde_to_str` (src/utils/codec.rs). -/
inductive Json
  | str (s : String)
  | arr (xs : JsonList)
  | obj (fields : JsonFields)

/-- A list of JSON values (children of a JSON array). -/
inductive JsonList
  | nil
  | cons (hd : Json) (tl : JsonList)

/-- The key-value fields of a JSON object, in declaration order. -/
inductive JsonFields
  | nil
  | cons (key : String) (val : Json) (tl : JsonFields)
end

/-- Lower-case hexadecimal digit. -/
def hexDigitChar (n : Nat) : Char :=
  if n < 10 then Char.ofNat (48 + n) else Char.ofNat (87 + n)

/-- JSON string escaping: quote and backslash are escaped, control
characters use the short escapes or a `\u00XX` escape, and every other
character (in particular the space) is emitted unchanged. -/
def jsonEscapeChar (c : Char) : List Char :=
  if c = '"' then ['\\', '"']
  else if c = '\\' then ['\\', '\\']
  else if c = '\x08' then ['\\', 'b']
  else if c = '\x0c' then ['\\', 'f']
  else if c = '\n' then ['\\', 'n']
  else if c = '\r' then ['\\', 'r']
  else if c = '\t' then ['\\', 't']
  else if c.toNat < 32 then
    ['\\', 'u', '0', '0', hexDigitChar (c.toNat / 16), hexDigitChar (c.toNat % 16)]
  else [c]

/-- A JSON string literal: the escaped text between double quotes. -/
def jsonQuote (s : String) : String :=
  ⟨'"' :: s.data.foldr (fun c acc => jsonEscapeChar c ++ acc) ['"']⟩

/-- Byte-lexicographic comparison of character lists; on the ASCII keys
of the sign document this agrees with Rust's `String` ordering used by
the sorted-JSON rendering. -/
def charListLtB : List Char → List Char → Bool
  | [], [] => false
  | [], _ :: _ => true
  | _ :: _, [] => false
  | a :: as, b :: bs => if a < b then true else if b < a then false else charListLtB as bs

/-- Key comparison for object sorting. -/
def strLtB (a b : String) : Bool := charListLtB a.data b.data

/-- Insert a rendered key-value pair into a key-sorted list. -/
def insertPair (p : String × String) : List (String × String) → List (String × String)
  | [] => [p]
  | q :: rest => if strLtB p.1 q.1 then p :: q :: rest else q :: insertPair p rest

/-- Sort rendered key-value pairs by key (insertion sort). -/
def sortPairs : List (String × String) → List (String × String)
  | [] => []
  | p :: rest => insertPair p (sortPairs rest)

/-- Join rendered items with commas. -/
def joinComma : List String → String
  | [] => ""
  | [x] => x
  | x :: y :: rest => x ++ "," ++ joinComma (y :: rest)

mutual
/-- Compact rendering of a JSON value with all object keys recursively
sorted, the sorted-keys part of `sorted_json::to_json`. -/
def renderJson : Json → String
  | Json.str s => jsonQuote s
  | Json.arr xs => "[" ++ joinComma (renderItems xs) ++ "]"
  | Json.obj fs =>
    "\x7b" ++
      joinComma ((sortPairs (renderFields fs)).map
        (fun kv => jsonQuote kv.1 ++ ":" ++ kv.2)) ++ "\x7d"

/-- Render the items of a JSON array in order. -/
def renderItems : JsonList → List String
  | JsonList.nil => []
  | JsonList.cons x xs => renderJson x :: renderItems xs

/-- Render the fields of a JSON object to (key, rendered value) pairs. -/
def renderFields : JsonFields → List (String × String)
  | JsonFields.nil => []
  | JsonFields.cons k v fs => (k, renderJson v) :: renderFields fs
end

/-- The `.replace("\n", "").replace(" ", "")` calls: every newline and
space character is removed from the rendered string, including
characters inside JSON string literals. -/
def stripSpaceNewline (s : String) : String :=
  ⟨s.data.filter fun c => !(c == ' ' || c == '\n')⟩

/-- Build a `JsonList` from a Lean list. -/
def JsonList.ofList : List Json → JsonList
  | [] => JsonList.nil
  | x :: xs => JsonList.cons x (JsonList.ofList xs)

/-- Build `JsonFields` from a Lean association list. -/
def JsonFields.ofList : List (String × Json) → JsonFields
  | [] => JsonFields.nil
  | (k, v) :: fs => JsonFields.cons k v (JsonFields.ofList fs)

/-! ## Amino sign document and transfer builder
(src/tx_builder/amino.rs, src/tx_builder.rs, src/types/transaction.rs,
src/types/signature.rs, src/types/key.rs) -/

/-- Serde rendering of a denomination (lowercase rename, src/types/basic.rs). -/
def Denom.ser : Denom → String
  | Denom.basecro => "basecro"
  | Denom.cro => "cro"

/-- The serialized public key wrapper (src/types/key.rs lines 15-29):
a fixed key-type tag and the base64 text of the compressed key. -/
structure PublicKeyWrap where
  p_type : String
  value : String
deriving DecidableEq, Repr

/-- `TransferValue` (src/types/transaction.rs lines 10-15); the two
addresses are carried as their rendered bech32 strings. -/
structure TransferValue where
  from_address : String
  to_address : String
  amount : List Amount
deriving DecidableEq, Repr

/-- `Transfer` (src/types/transaction.rs lines 29-34); `transfer_type`
is serialized under the key `type`. -/
structure Transfer where
  transfer_type : String
  value : TransferValue
deriving DecidableEq, Repr

/-- `Transfer::new` (src/types/transaction.rs lines 36-51): the amount
is normalized through `Amount::new` and the type tag is fixed. -/
def Transfer.new (fromAddress toAddress : String) (amount : Nat) (denom : Denom) :
    Transfer :=
  { transfer_type := "cosmos-sdk/MsgSend",
    value := { from_address := fromAddress, to_address := toAddress,
               amount := [Amount.new amount denom] } }

/-- `Signature` (src/types/signature.rs lines 7-14). -/
structure AminoSignature where
  signature : String
  pub_key : PublicKeyWrap
  account_number : Nat
  sequence : Nat
deriving DecidableEq, Repr

/-- The amino sign document `SignMsg` (src/tx_builder/amino.rs lines
21-31); identical to `SignDoc` in src/types/signature.rs lines 16-26. -/
structure SignMsg where
  account_number : Nat
  sequence : Nat
  chain_id : String
  memo : String
  fee : Fee
  msgs : List Transfer
deriving DecidableEq, Repr

/-- Serde JSON value of an `Amount`: fields in declaration order, the
integer rendered as a decimal string by `serde_to_str`. -/
def amountJson (a : Amount) : Json :=
  Json.obj (JsonFields.ofList
    [("denom", Json.str a.denom.ser), ("amount", Json.str (Nat.repr a.amount))])

/-- Serde JSON value of a `Fee`. -/
def feeJson (f : Fee) : Json :=
  Json.obj (JsonFields.ofList
    [("gas", Json.str (Nat.repr f.gas)),
     ("amount", Json.arr (JsonList.ofList (f.amount.map amountJson)))])

/-- Serde JSON value of a `TransferValue`. -/
def transferValueJson (v : TransferValue) : Json :=
  Json.obj (JsonFields.ofList
    [("from_address", Json.str v.from_address),
     ("to_address", Json.str v.to_address),
     ("amount", Json.arr (JsonList.ofList (v.amount.map amountJson)))])

/-- Serde JSON value of a `Transfer` (`transfer_type` renamed to `type`). -/
def transferJson (t : Transfer) : Json :=
  Json.obj (JsonFields.ofList
    [("type", Json.str t.transfer_type), ("value", transferValueJson t.value)])

/-- Serde JSON value of the amino sign document, fields in declaration
order with the numeric fields rendered as decimal strings. -/
def signMsgJson (m : SignMsg) : Json :=
  Json.obj (JsonFields.ofList
    [("account_number", Json.str (Nat.repr m.account_number)),
     ("sequence", Json.str (Nat.repr m.sequence)),
     ("chain_id", Json.str m.chain_id),
     ("memo", Json.str m.memo),
     ("fee", feeJson m.fee),
     ("msgs", Json.arr (JsonList.ofList (m.msgs.map transferJson)))])

/-- The amino sign string: sorted-keys JSON rendering followed by the
two `replace` calls of `TransferBuilder::sign` / `SignDoc::encode`. -/
def aminoSignString (m : SignMsg) : String :=
  stripSpaceNewline (renderJson (signMsgJson m))

/-- UTF-8 encoding of one character. -/
def utf8EncodeChar (c : Char) : List Nat :=
  let n := c.toNat
  if n < 0x80 then [n]
  else if n < 0x800 then [0xc0 ||| (n >>> 6), 0x80 ||| (n &&& 0x3f)]
  else if n < 0x10000 then
    [0xe0 ||| (n >>> 12), 0x80 ||| ((n >>> 6) &&& 0x3f), 0x80 ||| (n &&& 0x3f)]
  else
    [0xf0 ||| (n >>> 18), 0x80 ||| ((n >>> 12) &&& 0x3f),
     0x80 ||| ((n >>> 6) &&& 0x3f), 0x80 ||| (n &&& 0x3f)]

/-- UTF-8 bytes of a string (Rust `str::as_bytes`). -/
def utf8Bytes (s : String) : List Nat :=
  s.data.foldr (fun c acc => utf8EncodeChar c ++ acc) []

/-- The signer capability consumed by the builders (`KeyService` trait,
src/key_service/mod.rs): a public key descriptor, the signer's bech32
account address, and the signing function from message bytes to a
base64 signature string.  The software implementation
(src/key_service.rs) uses deterministic ECDSA (spec §4.3), so `sign` is
a mathematical function of the message. -/
structure AminoSigner where
  publicKey : PublicKeyWrap
  address : String
  sign : List Nat → String

/-- The amino `TransferBuilder` state (src/tx_builder/amino.rs lines
11-19; identical in src/tx_builder.rs lines 11-19). -/
structure TransferBuilder where
  fee : Amount
  gas : Option Nat
  memo : String
  keyService : AminoSigner
  chainId : String
  signatures : List AminoSignature
  transfers : List Transfer

/-- `TransferBuilder::new` (src/tx_builder/amino.rs lines 37-54). -/
def TransferBuilder.mkNew (fee : Amount) (gas : Option Nat) (memo : Option String)
    (keyService : AminoSigner) (chainId : String) : TransferBuilder :=
  { fee := fee, gas := gas, memo := memo.getD "", keyService := keyService,
    chainId := chainId, signatures := [], transfers := [] }

/-- `TransferBuilder::add_transfer` (src/tx_builder/amino.rs lines
56-66): the sender is the signer's own address and the new transfer is
pushed at the end of the message list. -/
def TransferBuilder.addTransfer (b : TransferBuilder) (amount : Nat) (denom : Denom)
    (toAddress : String) : TransferBuilder :=
  { b with transfers :=
      b.transfers ++ [Transfer.new b.keyService.address toAddress amount denom] }

/-- `TransferBuilder::get_fee` (src/tx_builder/amino.rs lines 68-74 and
src/tx_builder.rs lines 67-73): gas defaults to 20000 when unset, and
the amount list is the single configured fee amount. -/
def TransferBuilder.getFee (b : TransferBuilder) : Fee :=
  { gas := b.gas.getD 20000, amount := [b.fee] }

/-- The sign document assembled by `TransferBuilder::sign`
(src/tx_builder/amino.rs lines 77-85). -/
def TransferBuilder.signMsgOf (b : TransferBuilder) (accountNumber sequence : Nat) :
    SignMsg :=
  { account_number := accountNumber, sequence := sequence, chain_id := b.chainId,
    memo := b.memo, fee := b.getFee, msgs := b.transfers }

/-- The signature produced by one `TransferBuilder::sign` call
(src/tx_builder/amino.rs lines 86-99): the signer is applied to the
UTF-8 bytes of the canonicalized sign document. -/
def TransferBuilder.mkSignature (b : TransferBuilder) (accountNumber sequence : Nat) :
    AminoSignature :=
  { signature := b.keyService.sign (utf8Bytes (aminoSignString (b.signMsgOf accountNumber sequence))),
    pub_key := b.keyService.publicKey,
    account_number := accountNumber, sequence := sequence }

/-- `TransferBuilder::sign` (src/tx_builder/amino.rs lines 76-102):
pushes the new signature onto the builder's signature list. -/
def TransferBuilder.signStep (b : TransferBuilder) (accountNumber sequence : Nat) :
    TransferBuilder :=
  { b with signatures := b.signatures ++ [b.mkSignature accountNumber sequence] }

/-- `Tx` (src/types/transaction.rs lines 54-61). -/
structure Tx where
  messages : List Transfer
  fee : Fee
  memo : String
  signatures : List AminoSignature
deriving DecidableEq, Repr

/-- `Transaction` (src/types/transaction.rs lines 64-68). -/
structure Transaction where
  tx : Tx
  mode : SyncMode
deriving DecidableEq, Repr

/-- `TransferBuilder::build` (src/tx_builder/amino.rs lines 104-123):
sign once, then assemble the transaction from the mutated builder
state; the pair returns the transaction together with the builder state
after the call (`build` takes `&mut self`). -/
def TransferBuilder.build (b : TransferBuilder) (accountNumber sequence : Nat)
    (mode : SyncMode) : Transaction × TransferBuilder :=
  let b2 := b.signStep accountNumber sequence
  ({ tx := { messages := b2.transfers, fee := b2.getFee, memo := b2.memo,
             signatures := b2.signatures },
     mode := mode }, b2)

/-- The amino sign document of the end-to-end scenario in the repo's
own tests (src/tx_builder.rs test and spec §8): fee 100000 basecro, gas
300000, empty memo, chain `test`, one transfer of 100000000 basecro,
account number 0, sequence 0. -/
def exampleSignMsg : SignMsg :=
  { account_number := 0, sequence := 0, chain_id := "test", memo := "",
    fee := { gas := 300000, amount := [{ denom := Denom.basecro, amount := 100000 }] },
    msgs := [Transfer.new "cro1u9q8mfpzhyv2s43js7l5qseapx5kt3g2rf7ppf"
      "cro1wav0rvenku09q8rqx2nvu7wdl6jy5dx0009ulj" 100000000 Denom.basecro] }

/-- Validation against the repository's own test vector: the sign bytes
of the end-to-end scenario are exactly the 356-byte canonical JSON
string hard-coded in the `src/key_service.rs` test. -/
theorem amino_sign_string_matches_key_service_test :
    utf8Bytes (aminoSignString exampleSignMsg) =
      [123, 34, 97, 99, 99, 111, 117, 110, 116, 95, 110, 117, 109, 98, 101, 114, 34,
       58, 34, 48, 34, 44, 34, 99, 104, 97, 105, 110, 95, 105, 100, 34, 58, 34, 116,
       101, 115, 116, 34, 44, 34, 102, 101, 101, 34, 58, 123, 34, 97, 109, 111, 117,
       110, 116, 34, 58, 91, 123, 34, 97, 109, 111, 117, 110, 116, 34, 58, 34, 49,
       48, 48, 48, 48, 48, 34, 44, 34, 100, 101, 110, 111, 109, 34, 58, 34, 98, 97,
       115, 101, 99, 114, 111, 34, 125, 93, 44, 34, 103, 97, 115, 34, 58, 34, 51,
       48, 48, 48, 48, 48, 34, 125, 44, 34, 109, 101, 109, 111, 34, 58, 34, 34, 44,
       34, 109, 115, 103, 115, 34, 58, 91, 123, 34, 116, 121, 112, 101, 34, 58, 34,
       99, 111, 115, 109, 111, 115, 45, 115, 100, 107, 47, 77, 115, 103, 83, 101,
       110, 100, 34, 44, 34, 118, 97, 108, 117, 101, 34, 58, 123, 34, 97, 109, 111,
       117, 110, 116, 34, 58, 91, 123, 34, 97, 109, 111, 117, 110, 116, 34, 58, 34,
       49, 48, 48, 48, 48, 48, 48, 48, 48, 34, 44, 34, 100, 101, 110, 111, 109, 34,
       58, 34, 98, 97, 115, 101, 99, 114, 111, 34, 125, 93, 44, 34, 102, 114, 111,
       109, 95, 97, 100, 100, 114, 101, 115, 115, 34, 58, 34, 99, 114, 111, 49, 117,
       57, 113, 56, 109, 102, 112, 122, 104, 121, 118, 50, 115, 52, 51, 106, 115,
       55, 108, 53, 113, 115, 101, 97, 112, 120, 53, 107, 116, 51, 103, 50, 114,
       102, 55, 112, 112, 102, 34, 44, 34, 116, 111, 95, 97, 100, 100, 114, 101,
       115, 115, 34, 58, 34, 99, 114, 111, 49, 119, 97, 118, 48, 114, 118, 101, 110,
       107, 117, 48, 57, 113, 56, 114, 113, 120, 50, 110, 118, 117, 55, 119, 100,
       108, 54, 106, 121, 53, 100, 120, 48, 48, 48, 57, 117, 108, 106, 34, 125, 125,
       93, 44, 34, 115, 101, 113, 117, 101, 110, 99, 101, 34, 58, 34, 48, 34, 125] := by
  rfl

/-- The scenario sign document with a memo containing a space. -/
def signMsgMemoSpaced : SignMsg := { exampleSignMsg with memo := "a b" }

/-- The scenario sign document with the memo `ab` (no space). -/
def signMsgMemoJoined : SignMsg := { exampleSignMsg with memo := "ab" }

/-- `C1` (failing-input evaluation): the two `replace` calls delete the
space inside the memo string value, so the logically distinct sign
documents with memo `"a b"` and memo `"ab"` produce byte-identical sign
bytes, and the sign bytes of the spaced memo differ from its sorted-keys
JSON serialization (which removes no characters inside string
literals).  The memo therefore does not appear in the sign bytes
unchanged. -/
theorem amino_sign_bytes_alter_spaced_memo :
    signMsgMemoSpaced.memo = "a b" ∧
    signMsgMemoJoined.memo = "ab" ∧
    signMsgMemoSpaced ≠ signMsgMemoJoined ∧
    aminoSignString signMsgMemoSpaced = aminoSignString signMsgMemoJoined ∧
    aminoSignString signMsgMemoSpaced ≠ renderJson (signMsgJson signMsgMemoSpaced) := by
  refine ⟨rfl, rfl, by decide, by rfl, by decide⟩

/-- A concrete amino signer used to instantiate the builder theorems. -/
def exampleAminoSigner : AminoSigner :=
  { publicKey := { p_type := "tendermint/PubKeySecp256k1",
                   value := "AntL+UxMyJ9NZ9DGLp2v7a3dlSxiNXMaItyOXSRw8iYi" },
    address := "cro1u9q8mfpzhyv2s43js7l5qseapx5kt3g2rf7ppf",
    sign := fun _ => "examplesignature" }

/-- A concrete builder with the gas option unset. -/
def exampleBuilderNoGas : TransferBuilder :=
  TransferBuilder.mkNew { denom := Denom.basecro, amount := 100000 } none none
    exampleAminoSigner "test"

/-- A concrete builder with gas set to 300000. -/
def exampleBuilderGas : TransferBuilder :=
  TransferBuilder.mkNew { denom := Denom.basecro, amount := 100000 } (some 300000)
    none exampleAminoSigner "test"

/-- `C6`: the fee placed in the built transaction and in the sign
document uses the configured gas, defaulting to 20000 when the gas
option is unset, and its amount list is exactly the one configured fee
amount. -/
theorem amino_fee_gas_default (b : TransferBuilder) (an sq : Nat) (mode : SyncMode) :
    ((b.build an sq mode).1.tx.fee = { gas := b.gas.getD 20000, amount := [b.fee] } ∧
     (b.signMsgOf an sq).fee = { gas := b.gas.getD 20000, amount := [b.fee] }) ∧
    (b.gas = none → (b.build an sq mode).1.tx.fee.gas = 20000 ∧
      (b.signMsgOf an sq).fee.gas = 20000) ∧
    (∀ g, b.gas = some g → (b.build an sq mode).1.tx.fee.gas = g ∧
      (b.signMsgOf an sq).fee.gas = g) := by
  refine ⟨⟨rfl, rfl⟩, ?_, ?_⟩
  · intro h
    constructor <;>
      simp [TransferBuilder.build, TransferBuilder.signStep, TransferBuilder.getFee,
        TransferBuilder.signMsgOf, h]
  · intro g h
    constructor <;>
      simp [TransferBuilder.build, TransferBuilder.signStep, TransferBuilder.getFee,
        TransferBuilder.signMsgOf, h]

/-- Witness for `C6` at concrete builders with gas unset and gas 300000. -/
theorem amino_fee_gas_default_witness :
    (exampleBuilderNoGas.build 0 0 SyncMode.sync).1.tx.fee.gas = 20000 ∧
    (exampleBuilderGas.build 0 0 SyncMode.sync).1.tx.fee.gas = 300000 ∧
    (exampleBuilderGas.build 0 0 SyncMode.sync).1.tx.fee =
      { gas := exampleBuilderGas.gas.getD 20000, amount := [exampleBuilderGas.fee] } := by
  refine ⟨((amino_fee_gas_default exampleBuilderNoGas 0 0 SyncMode.sync).2.1 rfl).1,
          ((amino_fee_gas_default exampleBuilderGas 0 0 SyncMode.sync).2.2 300000 rfl).1,
          (amino_fee_gas_default exampleBuilderGas 0 0 SyncMode.sync).1.1⟩

/-- `C7`: each `build` call appends exactly one signature to the
builder's signature list and returns a transaction carrying all
signatures accumulated so far; a second `build` yields two signatures,
and the sign document is independent of the accumulated signatures, so
the second signature covers only the messages added so far. -/
theorem amino_build_signature_accumulation (b : TransferBuilder)
    (an sq an2 sq2 : Nat) (m1 m2 : SyncMode) :
    ((b.build an sq m1).1.tx.signatures = b.signatures ++ [b.mkSignature an sq]) ∧
    ((b.build an sq m1).2.signatures = b.signatures ++ [b.mkSignature an sq]) ∧
    (((b.build an sq m1).2.build an2 sq2 m2).1.tx.signatures =
      b.signatures ++ [b.mkSignature an sq,
        (b.build an sq m1).2.mkSignature an2 sq2]) ∧
    ((b.build an sq m1).2.signMsgOf an2 sq2 = b.signMsgOf an2 sq2) ∧
    (∀ sigs, TransferBuilder.signMsgOf { b with signatures := sigs } an2 sq2 =
      b.signMsgOf an2 sq2) ∧
    (b.signatures = [] →
      ((b.build an sq m1).2.build an2 sq2 m2).1.tx.signatures.length = 2) := by
  refine ⟨rfl, rfl, ?_, rfl, fun sigs => rfl, ?_⟩
  · simp [TransferBuilder.build, TransferBuilder.signStep]
  · intro h
    simp [TransferBuilder.build, TransferBuilder.signStep, h]

/-- Witness for `C7` at a concrete builder with no prior signatures. -/
theorem amino_build_signature_accumulation_witness :
    ((exampleBuilderGas.build 0 0 SyncMode.sync).2.build 0 1 SyncMode.sync).1.tx.signatures.length = 2 ∧
    (exampleBuilderGas.build 0 0 SyncMode.sync).1.tx.signatures =
      exampleBuilderGas.signatures ++ [exampleBuilderGas.mkSignature 0 0] := by
  exact ⟨(amino_build_signature_accumulation exampleBuilderGas 0 0 0 1
            SyncMode.sync SyncMode.sync).2.2.2.2.2 rfl,
         (amino_build_signature_accumulation exampleBuilderGas 0 0 0 1
            SyncMode.sync SyncMode.sync).1⟩

/-! ## Bech32 (the external `bech32` crate used by src/types/address.rs,
modelled from its source / BIP-173) -/

/-- The bech32 data charset. -/
def bech32Charset : List Char := "qpzry9x8gf2tvdw0s3jn54khce6mua7l".data

/-- Character of a 5-bit group value. -/
def charsetChar (v : Nat) : Char := bech32Charset.getD v '?'

/-- Reverse charset lookup (the crate's `CHARSET_REV` table, which maps
both lower- and upper-case letters). -/
def charsetRev (c : Char) : Option Nat :=
  let i := List.indexOf c.toLower bech32Charset
  if i < 32 then some i else none

/-- One step of the bech32 checksum state update (the body of the
crate's `polymod` loop, with the five-iteration generator loop written
out). -/
def polymodStep (chk v : Nat) : Nat :=
  let b := chk >>> 25
  let c0 := ((chk &&& 0x1ffffff) <<< 5) ^^^ v
  let c1 := if b &&& 1 = 1 then c0 ^^^ 0x3b6a57b2 else c0
  let c2 := if (b >>> 1) &&& 1 = 1 then c1 ^^^ 0x26508e6d else c1
  let c3 := if (b >>> 2) &&& 1 = 1 then c2 ^^^ 0x1ea119fa else c2
  let c4 := if (b >>> 3) &&& 1 = 1 then c3 ^^^ 0x3d4233dd else c3
  if (b >>> 4) &&& 1 = 1 then c4 ^^^ 0x2a1462b3 else c4

/-- The bech32 `polymod` checksum accumulator, starting from 1. -/
def bech32Polymod (values : List Nat) : Nat := values.foldl polymodStep 1

/-- The crate's `hrp_expand`: high 3 bits of each human-readable-part
character, a zero, then the low 5 bits of each character. -/
def hrpExpand (hrp : List Char) : List Nat :=
  hrp.map (fun c => c.toNat >>> 5) ++ [0] ++ hrp.map (fun c => c.toNat &&& 31)

/-- The crate's `create_checksum`: six 5-bit groups extracted from the
polymod of the expanded human-readable part, the data, and six zeroes,
xored with 1. -/
def createChecksum (hrp : List Char) (data : List Nat) : List Nat :=
  let pm := bech32Polymod (hrpExpand hrp ++ data ++ [0, 0, 0, 0, 0, 0]) ^^^ 1
  [(pm >>> 25) &&& 31, (pm >>> 20) &&& 31, (pm >>> 15) &&& 31,
   (pm >>> 10) &&& 31, (pm >>> 5) &&& 31, pm &&& 31]

/-- The crate's `verify_checksum`: the polymod over the expanded
human-readable part and the full data part must be exactly 1. -/
def verifyChecksum (hrp : List Char) (data : List Nat) : Bool :=
  bech32Polymod (hrpExpand hrp ++ data) == 1

/-! ### The BCH checksum round-trip property

`polymodStep chk v = polyF chk ^^^ v` with `polyF` GF(2)-linear on
states below `2 ^ 30`; feeding the six checksum groups back into the
accumulator therefore reproduces the constant 1. -/

/-- The homogeneous part of one polymod step. -/
def polyF (chk : Nat) : Nat := polymodStep chk 0

/-- The generator contribution selected by the top five state bits. -/
def gensOf (b : Nat) : Nat :=
  (if b &&& 1 = 1 then 0x3b6a57b2 else 0) ^^^
  (if (b >>> 1) &&& 1 = 1 then 0x26508e6d else 0) ^^^
  (if (b >>> 2) &&& 1 = 1 then 0x1ea119fa else 0) ^^^
  (if (b >>> 3) &&& 1 = 1 then 0x3d4233dd else 0) ^^^
  (if (b >>> 4) &&& 1 = 1 then 0x2a1462b3 else 0)

/-- Xor is left-commutative on `Nat`. -/
theorem nat_xor_left_comm (a b c : Nat) : a ^^^ (b ^^^ c) = b ^^^ (a ^^^ c) := by
  rw [← Nat.xor_assoc, Nat.xor_comm a b, Nat.xor_assoc]

/-- The fed value enters one polymod step additively. -/
theorem polymodStep_eq (chk v : Nat) : polymodStep chk v = polyF chk ^^^ v := by
  simp only [polymodStep, polyF]
  split_ifs <;>
    simp [Nat.xor_assoc, Nat.xor_comm, nat_xor_left_comm]

/-- Closed form of the homogeneous step. -/
theorem polyF_eq (chk : Nat) :
    polyF chk = ((chk &&& 0x1ffffff) <<< 5) ^^^ gensOf (chk >>> 25) := by
  simp only [polyF, polymodStep, gensOf]
  split_ifs <;>
    simp [Nat.xor_assoc, Nat.xor_comm, nat_xor_left_comm]

/-- Right shifts distribute over xor. -/
theorem shiftRight_xor (a b k : Nat) : (a ^^^ b) >>> k = (a >>> k) ^^^ (b >>> k) := by
  apply Nat.eq_of_testBit_eq
  intro i
  simp [Nat.testBit_shiftRight, Nat.testBit_xor]

/-- Left shifts distribute over xor. -/
theorem shiftLeft_xor (a b k : Nat) : (a ^^^ b) <<< k = (a <<< k) ^^^ (b <<< k) := by
  apply Nat.eq_of_testBit_eq
  intro i
  simp [Nat.testBit_shiftLeft, Nat.testBit_xor, Bool.and_xor_distrib_left]

/-- The generator contribution is linear over the 5-bit state top. -/
theorem gensOf_linear : ∀ b c : Fin 32, gensOf (b.val ^^^ c.val) = gensOf b.val ^^^ gensOf c.val := by
  decide

/-- Every generator contribution fits in 30 bits. -/
theorem gensOf_lt (b : Nat) : gensOf b < 2 ^ 30 := by
  unfold gensOf
  split_ifs <;> decide

/-- The homogeneous step keeps the state below `2 ^ 30`. -/
theorem polyF_lt (chk : Nat) : polyF chk < 2 ^ 30 := by
  rw [polyF_eq]
  apply Nat.xor_lt_two_pow ?_ (gensOf_lt _)
  have h1 : chk &&& 0x1ffffff ≤ 0x1ffffff := Nat.and_le_right
  rw [Nat.shiftLeft_eq]
  have h2 : (2 : Nat) ^ 5 = 32 := by norm_num
  have h3 : (2 : Nat) ^ 30 = 1073741824 := by norm_num
  rw [h2, h3]
  omega

/-- Below `2 ^ 30` the top five state bits are below 32. -/
theorem shiftTop_lt (x : Nat) (hx : x < 2 ^ 30) : x >>> 25 < 32 := by
  rw [Nat.shiftRight_eq_div_pow]
  have h1 : (2 : Nat) ^ 25 = 33554432 := by norm_num
  have h2 : (2 : Nat) ^ 30 = 1073741824 := by norm_num
  rw [h1]
  omega

/-- The homogeneous step is GF(2)-linear on states below `2 ^ 30`. -/
theorem polyF_linear (x y : Nat) (hx : x < 2 ^ 30) (hy : y < 2 ^ 30) :
    polyF (x ^^^ y) = polyF x ^^^ polyF y := by
  have hb : (x ^^^ y) >>> 25 = (x >>> 25) ^^^ (y >>> 25) := shiftRight_xor x y 25
  rw [polyF_eq, polyF_eq, polyF_eq, hb, Nat.and_xor_distrib_right, shiftLeft_xor]
  have hg : gensOf ((x >>> 25) ^^^ (y >>> 25)) = gensOf (x >>> 25) ^^^ gensOf (y >>> 25) :=
    gensOf_linear ⟨x >>> 25, shiftTop_lt x hx⟩ ⟨y >>> 25, shiftTop_lt y hy⟩
  rw [hg]
  simp [Nat.xor_assoc, Nat.xor_comm, nat_xor_left_comm]

/-- Iterated homogeneous step. -/
def polyFn : Nat → Nat → Nat
  | 0, s => s
  | k + 1, s => polyFn k (polyF s)

/-- Iterating the homogeneous step keeps the state below `2 ^ 30`. -/
theorem polyFn_lt (k : Nat) : ∀ s, s < 2 ^ 30 → polyFn k s < 2 ^ 30 := by
  induction k with
  | zero => intro s hs; exact hs
  | succ k ih => intro s hs; exact ih (polyF s) (polyF_lt s)

/-- The iterated homogeneous step is linear on states below `2 ^ 30`. -/
theorem polyFn_linear (k : Nat) : ∀ x y, x < 2 ^ 30 → y < 2 ^ 30 →
    polyFn k (x ^^^ y) = polyFn k x ^^^ polyFn k y := by
  induction k with
  | zero => intro x y hx hy; rfl
  | succ k ih =>
    intro x y hx hy
    show polyFn k (polyF (x ^^^ y)) = polyFn k (polyF x) ^^^ polyFn k (polyF y)
    rw [polyF_linear x y hx hy]
    exact ih (polyF x) (polyF y) (polyF_lt x) (polyF_lt y)

/-- The accumulated contribution of a fed suffix. -/
def polyTail : List Nat → Nat
  | [] => 0
  | c :: cs => polyFn cs.length c ^^^ polyTail cs

/-- Feeding a suffix decomposes into the iterated homogeneous step of
the state and the suffix's own contribution. -/
theorem foldl_polymodStep_expand (cs : List Nat) : ∀ s, s < 2 ^ 30 →
    (∀ c ∈ cs, c < 2 ^ 30) →
    List.foldl polymodStep s cs = polyFn cs.length s ^^^ polyTail cs := by
  induction cs with
  | nil =>
    intro s hs h
    simp [polyTail, polyFn]
  | cons c cs ih =>
    intro s hs h
    have hc : c < 2 ^ 30 := h c (by simp)
    show List.foldl polymodStep (polymodStep s c) cs = _
    rw [polymodStep_eq,
      ih (polyF s ^^^ c) (Nat.xor_lt_two_pow (polyF_lt s) hc)
        (fun x hx => h x (by simp [hx])),
      polyFn_linear cs.length (polyF s) c (polyF_lt s) hc]
    show polyFn cs.length (polyF s) ^^^ polyFn cs.length c ^^^ polyTail cs =
      polyFn cs.length (polyF s) ^^^ (polyFn cs.length c ^^^ polyTail cs)
    rw [Nat.xor_assoc]

/-- Feeding any values keeps the state below `2 ^ 30`. -/
theorem foldl_polymodStep_lt (cs : List Nat) : ∀ s, s < 2 ^ 30 →
    (∀ c ∈ cs, c < 2 ^ 30) → List.foldl polymodStep s cs < 2 ^ 30 := by
  induction cs with
  | nil =>
    intro s hs h
    exact hs
  | cons c cs ih =>
    intro s hs h
    show List.foldl polymodStep (polymodStep s c) cs < 2 ^ 30
    apply ih
    · rw [polymodStep_eq]
      exact Nat.xor_lt_two_pow (polyF_lt s) (h c (by simp))
    · intro x hx
      exact h x (by simp [hx])

/-- The contribution of the six checksum groups extracted from `t`. -/
def checksumFeed (t : Nat) : Nat :=
  polyFn 5 ((t >>> 25) &&& 31) ^^^
    (polyFn 4 ((t >>> 20) &&& 31) ^^^
      (polyFn 3 ((t >>> 15) &&& 31) ^^^
        (polyFn 2 ((t >>> 10) &&& 31) ^^^
          (polyFn 1 ((t >>> 5) &&& 31) ^^^ (polyFn 0 (t &&& 31) ^^^ 0)))))

/-- Extracting a 5-bit group is linear. -/
theorem extract_xor (x y k : Nat) :
    ((x ^^^ y) >>> k) &&& 31 = ((x >>> k) &&& 31) ^^^ ((y >>> k) &&& 31) := by
  rw [shiftRight_xor, Nat.and_xor_distrib_right]

/-- A 5-bit group is below `2 ^ 30`. -/
theorem extract_lt (x k : Nat) : (x >>> k) &&& 31 < 2 ^ 30 := by
  have h : (x >>> k) &&& 31 ≤ 31 := Nat.and_le_right
  have h2 : (2 : Nat) ^ 30 = 1073741824 := by norm_num
  omega

/-- A masked value is below `2 ^ 30`. -/
theorem mask_lt (x : Nat) : x &&& 31 < 2 ^ 30 := by
  have h : x &&& 31 ≤ 31 := Nat.and_le_right
  have h2 : (2 : Nat) ^ 30 = 1073741824 := by norm_num
  omega

/-- Interchange of a pair of xors. -/
theorem xor_xor_interchange (a b c d : Nat) :
    (a ^^^ b) ^^^ (c ^^^ d) = (a ^^^ c) ^^^ (b ^^^ d) := by
  simp [Nat.xor_assoc, Nat.xor_comm, nat_xor_left_comm]

/-- Interchange of six pairs of xors. -/
theorem xor_six_interchange (a1 a2 a3 a4 a5 a6 b1 b2 b3 b4 b5 b6 : Nat) :
    (a1 ^^^ b1) ^^^ ((a2 ^^^ b2) ^^^ ((a3 ^^^ b3) ^^^ ((a4 ^^^ b4) ^^^
      ((a5 ^^^ b5) ^^^ (a6 ^^^ b6))))) =
    (a1 ^^^ (a2 ^^^ (a3 ^^^ (a4 ^^^ (a5 ^^^ a6))))) ^^^
      (b1 ^^^ (b2 ^^^ (b3 ^^^ (b4 ^^^ (b5 ^^^ b6))))) := by
  rw [xor_xor_interchange a5 b5 a6 b6,
    xor_xor_interchange a4 b4 (a5 ^^^ a6) (b5 ^^^ b6),
    xor_xor_interchange a3 b3 (a4 ^^^ (a5 ^^^ a6)) (b4 ^^^ (b5 ^^^ b6)),
    xor_xor_interchange a2 b2 (a3 ^^^ (a4 ^^^ (a5 ^^^ a6)))
      (b3 ^^^ (b4 ^^^ (b5 ^^^ b6))),
    xor_xor_interchange a1 b1 (a2 ^^^ (a3 ^^^ (a4 ^^^ (a5 ^^^ a6))))
      (b2 ^^^ (b3 ^^^ (b4 ^^^ (b5 ^^^ b6))))]

/-- The checksum-group contribution is linear below `2 ^ 30`. -/
theorem checksumFeed_linear (x y : Nat) (hx : x < 2 ^ 30) (hy : y < 2 ^ 30) :
    checksumFeed (x ^^^ y) = checksumFeed x ^^^ checksumFeed y := by
  unfold checksumFeed
  rw [extract_xor x y 25, extract_xor x y 20, extract_xor x y 15, extract_xor x y 10,
    extract_xor x y 5, Nat.and_xor_distrib_right,
    polyFn_linear 5 _ _ (extract_lt x 25) (extract_lt y 25),
    polyFn_linear 4 _ _ (extract_lt x 20) (extract_lt y 20),
    polyFn_linear 3 _ _ (extract_lt x 15) (extract_lt y 15),
    polyFn_linear 2 _ _ (extract_lt x 10) (extract_lt y 10),
    polyFn_linear 1 _ _ (extract_lt x 5) (extract_lt y 5),
    polyFn_linear 0 _ _ (mask_lt x) (mask_lt y)]
  simp only [Nat.xor_zero]
  exact xor_six_interchange _ _ _ _ _ _ _ _ _ _ _ _

/-- The checksum-group contribution fixes every power of two below
`2 ^ 30`. -/
theorem checksumFeed_two_pow : ∀ j : Fin 30, checksumFeed (2 ^ j.val) = 2 ^ j.val := by
  decide

/-- The checksum-group contribution fixes zero. -/
theorem checksumFeed_zero : checksumFeed 0 = 0 := by decide

/-- The checksum-group contribution is the identity below `2 ^ 30`. -/
theorem checksumFeed_id : ∀ t, t < 2 ^ 30 → checksumFeed t = t := by
  intro t
  induction t using Nat.strong_induction_on with
  | _ t ih =>
    intro ht
    by_cases h0 : t = 0
    · subst h0
      exact checksumFeed_zero
    · set j := t.log2 with hjdef
      have hlog_le : 2 ^ j ≤ t := Nat.log2_self_le h0
      have hlog_lt : t < 2 ^ (j + 1) := Nat.lt_log2_self
      have hj : j < 30 := (Nat.log2_lt h0).mpr ht
      have hbit : t.testBit j = true := by
        have hdiv : t / 2 ^ j = 1 := by
          have hpos : 0 < 2 ^ j := Nat.pos_pow_of_pos j (by norm_num)
          have h1 : 1 ≤ t / 2 ^ j := (Nat.one_le_div_iff hpos).mpr hlog_le
          have h2 : t / 2 ^ j < 2 := by
            apply (Nat.div_lt_iff_lt_mul hpos).mpr
            have hpow : (2 : Nat) ^ (j + 1) = 2 ^ j * 2 := by ring
            omega
          omega
        rw [Nat.testBit_to_div_mod, hdiv]
        rfl
      have hlt' : t ^^^ 2 ^ j < 2 ^ j := by
        apply Nat.lt_pow_two_of_testBit
        intro i hi
        rcases Nat.eq_or_lt_of_le hi with heq | hgt
        · subst heq
          simp [Nat.testBit_xor, hbit, Nat.testBit_two_pow_self]
        · have h1 : t.testBit i = false := by
            apply Nat.testBit_lt_two_pow
            calc t < 2 ^ (j + 1) := hlog_lt
            _ ≤ 2 ^ i := Nat.pow_le_pow_right (by norm_num) hgt
          have h2 : (2 ^ j).testBit i = false := Nat.testBit_two_pow_of_ne (by omega)
          simp [Nat.testBit_xor, h1, h2]
      have hlt30 : t ^^^ 2 ^ j < 2 ^ 30 := by
        calc t ^^^ 2 ^ j < 2 ^ j := hlt'
        _ ≤ 2 ^ 30 := Nat.pow_le_pow_right (by norm_num) (by omega)
      have hrec : checksumFeed (t ^^^ 2 ^ j) = t ^^^ 2 ^ j :=
        ih (t ^^^ 2 ^ j) (Nat.lt_of_lt_of_le hlt' hlog_le) hlt30
      have hpow30 : (2 : Nat) ^ j < 2 ^ 30 := Nat.pow_lt_pow_right (by norm_num) hj
      have hsplit : t = (t ^^^ 2 ^ j) ^^^ 2 ^ j := (Nat.xor_cancel_right _ _).symm
      rw [hsplit, checksumFeed_linear _ _ hlt30 hpow30, hrec]
      have hfix : checksumFeed (2 ^ j) = 2 ^ j := checksumFeed_two_pow ⟨j, hj⟩
      rw [hfix]

/-- Every character code is below `2 ^ 30` (Unicode scalar values stop
at `0x110000`). -/
theorem char_toNat_lt (c : Char) : c.toNat < 2 ^ 30 := by
  have h2 : (2 : Nat) ^ 30 = 1073741824 := by norm_num
  have h3 : c.toNat = c.val.toNat := rfl
  rcases c.valid with h | ⟨_, h⟩ <;> omega

/-- Values of the expanded human-readable part are below `2 ^ 30`. -/
theorem hrpExpand_lt (hrp : List Char) : ∀ v ∈ hrpExpand hrp, v < 2 ^ 30 := by
  intro v hv
  unfold hrpExpand at hv
  rcases List.mem_append.mp hv with hv1 | hv2
  · rcases List.mem_append.mp hv1 with hv3 | hv4
    · obtain ⟨c, hc, rfl⟩ := List.mem_map.mp hv3
      calc c.toNat >>> 5 ≤ c.toNat := by
            rw [Nat.shiftRight_eq_div_pow]
            exact Nat.div_le_self _ _
      _ < 2 ^ 30 := char_toNat_lt c
    · have : v = 0 := by simpa using hv4
      subst this
      exact Nat.pos_pow_of_pos 30 (by norm_num)
  · obtain ⟨c, hc, rfl⟩ := List.mem_map.mp hv2
    exact mask_lt c.toNat

/-- Every checksum group is a 5-bit value. -/
theorem createChecksum_lt (hrp : List Char) (data : List Nat) :
    ∀ v ∈ createChecksum hrp data, v < 32 := by
  intro v hv
  unfold createChecksum at hv
  simp only [List.mem_cons, List.not_mem_nil, or_false] at hv
  rcases hv with rfl | rfl | rfl | rfl | rfl | rfl <;>
    exact Nat.lt_succ_of_le Nat.and_le_right

/-- The checksum has six groups. -/
theorem createChecksum_length (hrp : List Char) (data : List Nat) :
    (createChecksum hrp data).length = 6 := rfl

/-- The central bech32 fact: the checksum produced by `create_checksum`
always verifies. -/
theorem verifyChecksum_createChecksum (hrp : List Char) (data : List Nat)
    (hd : ∀ v ∈ data, v < 32) :
    verifyChecksum hrp (data ++ createChecksum hrp data) = true := by
  have hd30 : ∀ v ∈ data, v < 2 ^ 30 := by
    intro v hv
    have h2 : (2 : Nat) ^ 30 = 1073741824 := by norm_num
    have := hd v hv
    omega
  have hpre : ∀ v ∈ hrpExpand hrp ++ data, v < 2 ^ 30 := by
    intro v hv
    rcases List.mem_append.mp hv with h | h
    · exact hrpExpand_lt hrp v h
    · exact hd30 v h
  have hone : (1 : Nat) < 2 ^ 30 := by norm_num
  have hsb : bech32Polymod (hrpExpand hrp ++ data) < 2 ^ 30 :=
    foldl_polymodStep_lt (hrpExpand hrp ++ data) 1 hone hpre
  set s := bech32Polymod (hrpExpand hrp ++ data) with hsdef
  have hpm : bech32Polymod (hrpExpand hrp ++ data ++ [0, 0, 0, 0, 0, 0]) = polyFn 6 s := by
    rw [bech32Polymod, List.foldl_append]
    rfl
  have hcks30 : ∀ v ∈ createChecksum hrp data, v < 2 ^ 30 := by
    intro v hv
    have h2 : (2 : Nat) ^ 30 = 1073741824 := by norm_num
    have := createChecksum_lt hrp data v hv
    omega
  have hfeed : polyTail (createChecksum hrp data) =
      checksumFeed (bech32Polymod (hrpExpand hrp ++ data ++ [0, 0, 0, 0, 0, 0]) ^^^ 1) := rfl
  have hpmlt : bech32Polymod (hrpExpand hrp ++ data ++ [0, 0, 0, 0, 0, 0]) ^^^ 1 < 2 ^ 30 := by
    rw [hpm]
    exact Nat.xor_lt_two_pow (polyFn_lt 6 s hsb) hone
  rw [verifyChecksum, bech32Polymod, ← List.append_assoc, List.foldl_append]
  have hmain : List.foldl polymodStep (List.foldl polymodStep 1 (hrpExpand hrp ++ data))
      (createChecksum hrp data) = 1 := by
    have hfold := foldl_polymodStep_expand (createChecksum hrp data) s hsb hcks30
    rw [hsdef, bech32Polymod] at hfold
    rw [hfold, createChecksum_length, hfeed, checksumFeed_id _ hpmlt, hpm]
    exact Nat.xor_cancel_left (polyFn 6 s) 1
  rw [hmain]
  rfl

/-- Errors of the `bech32` crate (encode, decode and bit-group
conversion). -/
inductive Bech32Err
  | missingSeparator
  | invalidLength
  | invalidChar
  | mixedCase
  | invalidChecksum
  | invalidData
deriving DecidableEq, Repr

/-- `bech32::encode`: the human-readable part (validated to be
non-empty printable ASCII), the `1` separator, then data and checksum
in charset characters. -/
def bech32Encode (hrp : List Char) (data : List Nat) : Except Bech32Err String :=
  if hrp = [] ∨ ¬ (∀ c ∈ hrp, 33 ≤ c.toNat ∧ c.toNat ≤ 126) then
    Except.error Bech32Err.invalidData
  else Except.ok ⟨hrp ++ '1' :: (data ++ createChecksum hrp data).map charsetChar⟩

/-- Split a character list at its last `1` (Rust `str::rfind('1')`
followed by `split_at`). -/
def splitLastSep : List Char → Option (List Char × List Char)
  | [] => none
  | c :: rest =>
    match splitLastSep rest with
    | some (h, d) => some (c :: h, d)
    | none => if c = '1' then some ([], rest) else none

/-- Map the data-part characters through the reverse charset. -/
def parseDataChars : List Char → Option (List Nat)
  | [] => some []
  | c :: cs =>
    match charsetRev c, parseDataChars cs with
    | some v, some vs => some (v :: vs)
    | _, _ => none

/-- Final stage of `bech32::decode`: verify the checksum against the
lower-cased human-readable part and drop the six checksum groups. -/
def bech32DecodeVals (hrpLower : List Char) (vals : List Nat) :
    Except Bech32Err (List Char × List Nat) :=
  if verifyChecksum hrpLower vals then
    Except.ok (hrpLower, vals.take (vals.length - 6))
  else Except.error Bech32Err.invalidChecksum

/-- Middle stage of `bech32::decode`, after the separator split:
validate lengths, the human-readable characters and the letter case,
then map the data part through the reverse charset.  (The crate
interleaves the case check with the charset mapping; only which of the
two errors surfaces on inputs failing both differs, never ok versus
error.) -/
def bech32DecodeChecked (hrp dp : List Char) : Except Bech32Err (List Char × List Nat) :=
  if hrp = [] ∨ dp.length < 6 then Except.error Bech32Err.invalidLength
  else if ¬ (∀ c ∈ hrp, 33 ≤ c.toNat ∧ c.toNat ≤ 126) then
    Except.error Bech32Err.invalidChar
  else if (hrp ++ dp).any Char.isUpper && (hrp ++ dp).any Char.isLower then
    Except.error Bech32Err.mixedCase
  else
    match parseDataChars dp with
    | none => Except.error Bech32Err.invalidChar
    | some vals => bech32DecodeVals (hrp.map Char.toLower) vals

/-- `bech32::decode`: split at the last separator and run the checks. -/
def bech32Decode (s : String) : Except Bech32Err (List Char × List Nat) :=
  match splitLastSep s.data with
  | none => Except.error Bech32Err.missingSeparator
  | some (hrp, dp) => bech32DecodeChecked hrp dp

/-- One run of the crate's `convert_bits` inner `while bits >= to`
loop, emitting 5-bit groups from the accumulator; the loop consumes at
least one bit per iteration (for positive `to`), so `bits` itself
bounds the number of iterations. -/
def emitGroupsFuel (toB acc : Nat) : Nat → Nat → List Nat × Nat
  | 0, bits => ([], bits)
  | fuel + 1, bits =>
    if 0 < toB ∧ toB ≤ bits then
      let out := (acc >>> (bits - toB)) &&& ((1 <<< toB) - 1)
      let rest := emitGroupsFuel toB acc fuel (bits - toB)
      (out :: rest.1, rest.2)
    else ([], bits)

/-- All groups the accumulator loop can emit for the given bit count. -/
def emitGroups (toB acc bits : Nat) : List Nat × Nat :=
  emitGroupsFuel toB acc bits bits

/-- The recursion of the crate's `convert_bits`: values are checked
against the source width, shifted into a u32 accumulator, and full
target-width groups are emitted; at the end, `pad` emits the final
partial group padded with zeroes, while without `pad` leftovers beyond
a group or non-zero padding are rejected. -/
def convertBitsGo (fromB toB : Nat) (pad : Bool) :
    List Nat → Nat → Nat → Except Bech32Err (List Nat)
  | [], acc, bits =>
    if pad then
      if 0 < bits then
        Except.ok [(acc <<< (toB - bits)) &&& ((1 <<< toB) - 1)]
      else Except.ok []
    else if fromB ≤ bits ∨ ((acc <<< (toB - bits)) &&& ((1 <<< toB) - 1)) ≠ 0 then
      Except.error Bech32Err.invalidData
    else Except.ok []
  | v :: rest, acc, bits =>
    if (1 <<< fromB) ≤ v then Except.error Bech32Err.invalidData
    else
      let acc2 := ((acc <<< fromB) % 2 ^ 32) ||| v
      let eg := emitGroups toB acc2 (bits + fromB)
      match convertBitsGo fromB toB pad rest acc2 eg.2 with
      | Except.ok out => Except.ok (eg.1 ++ out)
      | Except.error e => Except.error e

/-- `bech32::convert_bits` (general power-of-two regrouping; the
sources call it as `convert_bits(digest, 8, 5, true)`). -/
def convertBits (data : List Nat) (fromB toB : Nat) (pad : Bool) :
    Except Bech32Err (List Nat) :=
  if fromB = 0 ∨ 8 < fromB ∨ toB = 0 ∨ 8 < toB then Except.error Bech32Err.invalidData
  else convertBitsGo fromB toB pad data 0 0

/-! ## The address codec (src/types/address.rs, src/key_service.rs) -/

/-- Modelled from the spec: the account address human-readable prefix
(`ACCOUNT_ADDRESS_PREFIX` from the `config`/`constant` module absent
from the sources); the spec §8 test vectors fix it as `cro`. -/
def accountAddressHrp : String := "cro"

/-- `HASH_SIZE_ADDRESS` (src/types/address.rs line 6). -/
def HASH_SIZE_ADDRESS : Nat := 32

/-- `Address` (src/types/address.rs line 22): a 32-cell `H256` array,
holding one 5-bit group per cell for addresses produced by
`KeyService::address`. -/
structure Address where
  bytes : List Nat
deriving DecidableEq, Repr

/-- `CroAddressError` (src/types/address.rs lines 11-19); the Rust
`Bech32Error` variant carries the underlying error's display string,
modelled by the structured error value itself. -/
inductive CroAddressError
  | invalidPrefixError
  | convertError
  | bech32Error (e : Bech32Err)
deriving DecidableEq, Repr

/-- `Address::to_cro` (src/types/address.rs lines 25-37): every cell is
converted to a `u5` (failing on values of 32 or more) and the result is
bech32-encoded under the account prefix. -/
def Address.toCro (a : Address) : Except CroAddressError String :=
  if ∀ b ∈ a.bytes, b < 32 then
    match bech32Encode accountAddressHrp.data a.bytes with
    | Except.ok s => Except.ok s
    | Except.error e => Except.error (CroAddressError.bech32Error e)
  else Except.error (CroAddressError.bech32Error Bech32Err.invalidData)

/-- The outcome of `Address::from_cro`: besides the two `Result` cases,
the `copy_from_slice` at src/types/address.rs line 52 panics whenever
the decoded payload is not exactly 32 groups, modelled as an explicit
third outcome. -/
inductive FromCroResult
  | ok (a : Address)
  | err (e : CroAddressError)
  | panicked
deriving DecidableEq, Repr

/-- `Address::from_cro` (src/types/address.rs lines 39-55): inputs not
starting with the account prefix fail with `InvalidPrefix`; then the
input is bech32-decoded, a decode failure becoming `Bech32Error`; the
decoded groups are copied into the fixed 32-cell array, which panics
when their number is not exactly 32. -/
def Address.fromCro (s : String) : FromCroResult :=
  if accountAddressHrp.data.isPrefixOf s.data then
    match bech32Decode s with
    | Except.error e => FromCroResult.err (CroAddressError.bech32Error e)
    | Except.ok (_, vals) =>
      if vals.length = HASH_SIZE_ADDRESS then FromCroResult.ok ⟨vals⟩
      else FromCroResult.panicked
  else FromCroResult.err CroAddressError.invalidPrefixError

/-- `KeyService::address` (src/key_service.rs lines 30-47) from the
`RIPEMD160(SHA256(public key))` digest onward: the 20-byte digest is
regrouped into 5-bit values and the result is guarded to have exactly
32 groups.  The hashing itself is not modelled; quantifying over every
20-byte digest covers the digest of every valid public key. -/
def addressFromDigest (digest : List Nat) : Except Bech32Err Address :=
  match convertBits digest 8 5 true with
  | Except.error e => Except.error e
  | Except.ok bits =>
    if bits.length = HASH_SIZE_ADDRESS then Except.ok ⟨bits⟩
    else Except.error Bech32Err.invalidData

/-- The 20-byte digest of the repository's own address test
(src/types/address.rs test, spec §8). -/
def exampleDigest : List Nat :=
  [225, 64, 125, 164, 34, 185, 24, 168, 86, 50, 135, 191, 64, 67, 61, 9, 169, 101, 197, 10]

/-! ### Round-trip of the account address codec -/

/-- Per-group facts about the charset: the reverse lookup inverts the
forward one, and no data character is the separator, upper-case, or
changed by lower-casing. -/
theorem charsetChar_spec : ∀ v : Fin 32,
    charsetRev (charsetChar v.val) = some v.val ∧
    charsetChar v.val ≠ '1' ∧
    (charsetChar v.val).isUpper = false := by
  decide

/-- A list without the separator has no split. -/
theorem splitLastSep_none (cs : List Char) (h : '1' ∉ cs) : splitLastSep cs = none := by
  induction cs with
  | nil => rfl
  | cons c rest ih =>
    have hc : c ≠ '1' := by
      intro hc
      exact h (by simp [hc])
    have hrest : '1' ∉ rest := fun hr => h (by simp [hr])
    rw [splitLastSep, ih hrest]
    simp [hc]

/-- Splitting at the last separator of `hs ++ '1' :: ds` recovers the
two sides when `ds` is separator-free. -/
theorem splitLastSep_append (hs ds : List Char) (h : '1' ∉ ds) :
    splitLastSep (hs ++ '1' :: ds) = some (hs, ds) := by
  induction hs with
  | nil =>
    rw [List.nil_append, splitLastSep, splitLastSep_none ds h]
    simp
  | cons c hs ih =>
    rw [List.cons_append, splitLastSep, ih]

/-- Mapping valid groups to characters and back is the identity. -/
theorem parseDataChars_map (vs : List Nat) (h : ∀ v ∈ vs, v < 32) :
    parseDataChars (vs.map charsetChar) = some vs := by
  induction vs with
  | nil => rfl
  | cons v vs ih =>
    have hv : v < 32 := h v (by simp)
    have hrev : charsetRev (charsetChar v) = some v := (charsetChar_spec ⟨v, hv⟩).1
    rw [List.map_cons, parseDataChars, hrev, ih (fun x hx => h x (by simp [hx]))]

/-- No charset character is the separator. -/
theorem charsetChar_ne_sep (vs : List Nat) (h : ∀ v ∈ vs, v < 32) :
    '1' ∉ vs.map charsetChar := by
  intro hmem
  obtain ⟨v, hvmem, hveq⟩ := List.mem_map.mp hmem
  exact (charsetChar_spec ⟨v, h v hvmem⟩).2.1 hveq

/-- No charset character is upper-case. -/
theorem charsetChar_not_upper (vs : List Nat) (h : ∀ v ∈ vs, v < 32) :
    (vs.map charsetChar).any Char.isUpper = false := by
  rw [List.any_eq_false]
  intro c hc
  obtain ⟨v, hvmem, hveq⟩ := List.mem_map.mp hc
  rw [← hveq]
  simp [(charsetChar_spec ⟨v, h v hvmem⟩).2.2]

/-- Decoding an encoding under the account prefix recovers the data. -/
theorem bech32_decode_encode (data : List Nat) (hlen : data.length = 32)
    (hdv : ∀ v ∈ data, v < 32) (s : String)
    (henc : bech32Encode accountAddressHrp.data data = Except.ok s) :
    bech32Decode s = Except.ok (accountAddressHrp.data, data) := by
  have hhrp : ¬ (accountAddressHrp.data = [] ∨
      ¬ (∀ c ∈ accountAddressHrp.data, 33 ≤ c.toNat ∧ c.toNat ≤ 126)) := by decide
  rw [bech32Encode, if_neg hhrp] at henc
  injection henc with henc
  subst henc
  set cks := createChecksum accountAddressHrp.data data with hcksdef
  have hv32 : ∀ v ∈ data ++ cks, v < 32 := by
    intro v hv
    rcases List.mem_append.mp hv with h | h
    · exact hdv v h
    · exact createChecksum_lt accountAddressHrp.data data v h
  have hvslen : (data ++ cks).length = 38 := by
    rw [List.length_append, hlen, hcksdef, createChecksum_length]
  have hsplit : splitLastSep (accountAddressHrp.data ++ '1' :: (data ++ cks).map charsetChar) =
      some (accountAddressHrp.data, (data ++ cks).map charsetChar) :=
    splitLastSep_append _ _ (charsetChar_ne_sep _ hv32)
  have hstep : bech32Decode ⟨accountAddressHrp.data ++ '1' :: (data ++ cks).map charsetChar⟩ =
      bech32DecodeChecked accountAddressHrp.data ((data ++ cks).map charsetChar) := by
    rw [bech32Decode]
    show (match splitLastSep (accountAddressHrp.data ++ '1' :: (data ++ cks).map charsetChar) with
      | none => Except.error Bech32Err.missingSeparator
      | some (hrp, dp) => bech32DecodeChecked hrp dp) = _
    rw [hsplit]
  rw [hstep, bech32DecodeChecked]
  have hlen6 : ¬ (accountAddressHrp.data = [] ∨ ((data ++ cks).map charsetChar).length < 6) := by
    rw [List.length_map, hvslen]
    decide
  rw [if_neg hlen6, if_neg (by push_neg; decide)]
  have hcase : ((accountAddressHrp.data ++ (data ++ cks).map charsetChar).any Char.isUpper &&
      (accountAddressHrp.data ++ (data ++ cks).map charsetChar).any Char.isLower) = false := by
    rw [List.any_append, charsetChar_not_upper _ hv32]
    have hhu : (accountAddressHrp.data.any Char.isUpper) = false := by decide
    rw [hhu]
    rfl
  rw [if_neg (by simp only [hcase]; decide)]
  rw [parseDataChars_map _ hv32]
  show bech32DecodeVals (accountAddressHrp.data.map Char.toLower) (data ++ cks) = _
  have hlowid : accountAddressHrp.data.map Char.toLower = accountAddressHrp.data := by decide
  rw [bech32DecodeVals, hlowid]
  have hver : verifyChecksum accountAddressHrp.data (data ++ cks) = true := by
    rw [hcksdef]
    exact verifyChecksum_createChecksum accountAddressHrp.data data hdv
  rw [if_pos hver, hvslen]
  have htake : (data ++ cks).take (38 - 6) = data := by
    have h32 : 38 - 6 = data.length := by omega
    rw [h32]
    exact List.take_left data cks
  rw [htake]

/-- A masked group value is below the target range. -/
theorem mask_group_lt (x toB : Nat) : x &&& ((1 <<< toB) - 1) < 2 ^ toB := by
  have h1 : x &&& ((1 <<< toB) - 1) ≤ (1 <<< toB) - 1 := Nat.and_le_right
  have h2 : (1 : Nat) <<< toB = 2 ^ toB := Nat.one_shiftLeft toB
  have h3 : 0 < (2 : Nat) ^ toB := Nat.pos_pow_of_pos toB (by norm_num)
  omega

/-- Every group emitted by the accumulator loop is below the target
range. -/
theorem emitGroupsFuel_lt (toB acc : Nat) :
    ∀ fuel bits, ∀ v ∈ (emitGroupsFuel toB acc fuel bits).1, v < 2 ^ toB := by
  intro fuel
  induction fuel with
  | zero =>
    intro bits v hv
    simp [emitGroupsFuel] at hv
  | succ fuel ih =>
    intro bits v hv
    rw [emitGroupsFuel] at hv
    by_cases h : 0 < toB ∧ toB ≤ bits
    · rw [if_pos h] at hv
      rcases List.mem_cons.mp hv with rfl | hv2
      · exact mask_group_lt _ toB
      · exact ih (bits - toB) v hv2
    · rw [if_neg h] at hv
      simp at hv

/-- Every group produced by the conversion recursion is below the
target range. -/
theorem convertBitsGo_lt (fromB toB : Nat) (pad : Bool) :
    ∀ (l : List Nat) acc bits out,
      convertBitsGo fromB toB pad l acc bits = Except.ok out →
      ∀ v ∈ out, v < 2 ^ toB := by
  intro l
  induction l with
  | nil =>
    intro acc bits out hok v hv
    rw [convertBitsGo] at hok
    by_cases hp : pad
    · rw [if_pos hp] at hok
      by_cases hb : 0 < bits
      · rw [if_pos hb] at hok
        injection hok with hok
        subst hok
        rcases List.mem_singleton.mp hv with rfl
        exact mask_group_lt _ toB
      · rw [if_neg hb] at hok
        injection hok with hok
        subst hok
        simp at hv
    · rw [if_neg hp] at hok
      by_cases hc : fromB ≤ bits ∨ ((acc <<< (toB - bits)) &&& ((1 <<< toB) - 1)) ≠ 0
      · rw [if_pos hc] at hok
        cases hok
      · rw [if_neg hc] at hok
        injection hok with hok
        subst hok
        simp at hv
  | cons w rest ih =>
    intro acc bits out hok v hv
    rw [convertBitsGo] at hok
    by_cases hw : (1 <<< fromB) ≤ w
    · rw [if_pos hw] at hok
      cases hok
    · rw [if_neg hw] at hok
      have hok2 : (match convertBitsGo fromB toB pad rest (((acc <<< fromB) % 2 ^ 32) ||| w)
          (emitGroups toB (((acc <<< fromB) % 2 ^ 32) ||| w) (bits + fromB)).2 with
        | Except.ok out2 => Except.ok
            ((emitGroups toB (((acc <<< fromB) % 2 ^ 32) ||| w) (bits + fromB)).1 ++ out2)
        | Except.error e => Except.error e) = Except.ok out := hok
      rcases hrec : convertBitsGo fromB toB pad rest (((acc <<< fromB) % 2 ^ 32) ||| w)
          (emitGroups toB (((acc <<< fromB) % 2 ^ 32) ||| w) (bits + fromB)).2 with e | out2
      · rw [hrec] at hok2
        cases hok2
      · rw [hrec] at hok2
        injection hok2 with hok2
        subst hok2
        rcases List.mem_append.mp hv with h1 | h2
        · exact emitGroupsFuel_lt toB _ (bits + fromB) (bits + fromB) v h1
        · exact ih _ _ out2 hrec v h2

/-- Every group produced by `convert_bits` is below the target range. -/
theorem convertBits_lt (data : List Nat) (fromB toB : Nat) (pad : Bool)
    (out : List Nat) (h : convertBits data fromB toB pad = Except.ok out) :
    ∀ v ∈ out, v < 2 ^ toB := by
  rw [convertBits] at h
  by_cases hc : fromB = 0 ∨ 8 < fromB ∨ toB = 0 ∨ 8 < toB
  · rw [if_pos hc] at h
    cases h
  · rw [if_neg hc] at h
    exact convertBitsGo_lt fromB toB pad data 0 0 out h

/-- `C3`: for every valid public key (represented by its 20-byte
address digest), deriving the account address, rendering it with
`to_cro`, parsing it back with `from_cro` and rendering again
reproduces the derived address and the exact same address string. -/
theorem address_roundtrip (d : List Nat) (a : Address)
    (ha : addressFromDigest d = Except.ok a) :
    ∃ s, a.toCro = Except.ok s ∧
      ∃ a2, Address.fromCro s = FromCroResult.ok a2 ∧ a2.toCro = Except.ok s := by
  rw [addressFromDigest] at ha
  rcases hcv : convertBits d 8 5 true with e | bits
  · rw [hcv] at ha
    cases ha
  · rw [hcv] at ha
    have ha2 : (if bits.length = HASH_SIZE_ADDRESS then Except.ok (⟨bits⟩ : Address)
        else Except.error Bech32Err.invalidData) = Except.ok a := ha
    by_cases hl : bits.length = HASH_SIZE_ADDRESS
    · rw [if_pos hl] at ha2
      injection ha2 with ha2
      subst ha2
      have hb5 : ∀ v ∈ bits, v < 32 := by
        intro v hv
        have := convertBits_lt d 8 5 true bits hcv v hv
        norm_num at this
        exact this
      have hhrpok : ¬ (accountAddressHrp.data = [] ∨
          ¬ (∀ c ∈ accountAddressHrp.data, 33 ≤ c.toNat ∧ c.toNat ≤ 126)) := by decide
      have henc : bech32Encode accountAddressHrp.data bits =
          Except.ok ⟨accountAddressHrp.data ++ '1' ::
            (bits ++ createChecksum accountAddressHrp.data bits).map charsetChar⟩ := by
        rw [bech32Encode, if_neg hhrpok]
      set s : String := ⟨accountAddressHrp.data ++ '1' ::
        (bits ++ createChecksum accountAddressHrp.data bits).map charsetChar⟩ with hsdef
      have htocro : Address.toCro ⟨bits⟩ = Except.ok s := by
        rw [Address.toCro, if_pos hb5, henc]
      refine ⟨s, htocro, ⟨bits⟩, ?_, htocro⟩
      have hdec : bech32Decode s = Except.ok (accountAddressHrp.data, bits) :=
        bech32_decode_encode bits hl hb5 s henc
      rw [Address.fromCro]
      have hpref : accountAddressHrp.data.isPrefixOf s.data = true := by
        rw [hsdef]
        show accountAddressHrp.data.isPrefixOf (accountAddressHrp.data ++ _) = true
        rw [List.isPrefixOf_iff_prefix]
        exact List.prefix_append _ _
      rw [if_pos hpref]
      show (match bech32Decode s with
        | Except.error e => FromCroResult.err (CroAddressError.bech32Error e)
        | Except.ok (_, vals) =>
          if vals.length = HASH_SIZE_ADDRESS then FromCroResult.ok ⟨vals⟩
          else FromCroResult.panicked) = FromCroResult.ok ⟨bits⟩
      rw [hdec]
      show (if bits.length = HASH_SIZE_ADDRESS then FromCroResult.ok (⟨bits⟩ : Address)
        else FromCroResult.panicked) = FromCroResult.ok ⟨bits⟩
      rw [if_pos hl]
    · rw [if_neg hl] at ha2
      cases ha2

/-- The address derived from the repository test digest. -/
def exampleAddress : Address :=
  ⟨[28, 5, 0, 7, 27, 9, 1, 2, 23, 4, 12, 10, 16, 21, 17, 18, 16, 30, 31, 20,
    0, 16, 25, 29, 1, 6, 20, 22, 11, 17, 8, 10]⟩

/-- Validation against the repository's own test vector: the address of
the test digest renders to the bech32 string hard-coded in the
src/types/address.rs and src/key_service.rs tests. -/
theorem address_matches_repo_test :
    addressFromDigest exampleDigest = Except.ok exampleAddress ∧
    exampleAddress.toCro = Except.ok "cro1u9q8mfpzhyv2s43js7l5qseapx5kt3g2rf7ppf" := by
  exact ⟨rfl, rfl⟩

/-- Witness for `C3` at the repository's own test digest. -/
theorem address_roundtrip_witness :
    addressFromDigest exampleDigest = Except.ok exampleAddress ∧
    (∃ s, exampleAddress.toCro = Except.ok s ∧
      ∃ a2, Address.fromCro s = FromCroResult.ok a2 ∧ a2.toCro = Except.ok s) :=
  ⟨rfl, address_roundtrip exampleDigest exampleAddress rfl⟩

/-- `C4` (amended): inputs that do not start with the account prefix
fail with `InvalidPrefix`, and inputs that start with the prefix but
fail bech32 decoding fail with `Bech32Error`. -/
theorem from_cro_error_classification (s : String) :
    (accountAddressHrp.data.isPrefixOf s.data = false →
      Address.fromCro s = FromCroResult.err CroAddressError.invalidPrefixError) ∧
    (∀ e, accountAddressHrp.data.isPrefixOf s.data = true →
      bech32Decode s = Except.error e →
      Address.fromCro s = FromCroResult.err (CroAddressError.bech32Error e)) := by
  constructor
  · intro h
    rw [Address.fromCro, if_neg (by simp [h])]
  · intro e hpref hdec
    rw [Address.fromCro, if_pos hpref]
    show (match bech32Decode s with
      | Except.error e => FromCroResult.err (CroAddressError.bech32Error e)
      | Except.ok (_, vals) =>
        if vals.length = HASH_SIZE_ADDRESS then FromCroResult.ok ⟨vals⟩
        else FromCroResult.panicked) = _
    rw [hdec]

/-- A valid bech32 string whose human-readable part is `cros`, not the
account prefix `cro` (32 zero data groups and their checksum). -/
def crosExampleAddr : String := "cros1qqqqqqqqqqqqqqqqqqqqqqqqqqqqqqqqrld3dl"

/-- Counterexample to `C4` as stated: this input's human-readable part
is `cros`, which does not match the expected prefix `cro`, yet
`from_cro` does not fail with `InvalidPrefix` - it accepts the address,
because the code only checks `starts_with("cro")`. -/
theorem from_cro_accepts_mismatched_hrp :
    bech32Decode crosExampleAddr = Except.ok ("cros".data, List.replicate 32 0) ∧
    "cros".data ≠ accountAddressHrp.data ∧
    Address.fromCro crosExampleAddr = FromCroResult.ok ⟨List.replicate 32 0⟩ ∧
    Address.fromCro crosExampleAddr ≠ FromCroResult.err CroAddressError.invalidPrefixError := by
  refine ⟨by rfl, by decide, by rfl, by decide⟩

/-- Witness for the amended `C4` at concrete inputs: a string not
starting with `cro` fails with `InvalidPrefix`, and a prefixed string
with a broken checksum fails with `Bech32Error`. -/
theorem from_cro_error_classification_witness :
    Address.fromCro "tcrc1xyz" = FromCroResult.err CroAddressError.invalidPrefixError ∧
    Address.fromCro "cro1qqqqqqqqqqqqqqqqqqqq8tkt65" =
      FromCroResult.err (CroAddressError.bech32Error Bech32Err.invalidChecksum) := by
  constructor
  · exact (from_cro_error_classification "tcrc1xyz").1 (by decide)
  · exact (from_cro_error_classification "cro1qqqqqqqqqqqqqqqqqqqq8tkt65").2
      Bech32Err.invalidChecksum (by decide) (by rfl)

/-- A valid bech32 string under the account prefix whose payload has
only 20 data groups. -/
def croShortAddr : String := "cro1qqqqqqqqqqqqqqqqqqqq8tkt66"

/-- `C9`: when the input starts with the account prefix and decodes to
a payload that is not exactly 32 groups, `from_cro` panics in
`copy_from_slice` instead of returning an error; and for any input
starting with the prefix - in particular one whose human-readable part
is longer - the `InvalidPrefix` branch is never taken. -/
theorem from_cro_panics_on_bad_length (s : String) (hrp : List Char) (vals : List Nat) :
    (accountAddressHrp.data.isPrefixOf s.data = true →
      bech32Decode s = Except.ok (hrp, vals) → vals.length ≠ 32 →
      Address.fromCro s = FromCroResult.panicked) ∧
    (accountAddressHrp.data.isPrefixOf s.data = true →
      Address.fromCro s ≠ FromCroResult.err CroAddressError.invalidPrefixError) := by
  constructor
  · intro hpref hdec hlen
    rw [Address.fromCro, if_pos hpref]
    show (match bech32Decode s with
      | Except.error e => FromCroResult.err (CroAddressError.bech32Error e)
      | Except.ok (_, vals) =>
        if vals.length = HASH_SIZE_ADDRESS then FromCroResult.ok ⟨vals⟩
        else FromCroResult.panicked) = _
    rw [hdec]
    show (if vals.length = HASH_SIZE_ADDRESS then FromCroResult.ok (⟨vals⟩ : Address)
      else FromCroResult.panicked) = _
    rw [if_neg (by rw [HASH_SIZE_ADDRESS]; exact hlen)]
  · intro hpref
    rw [Address.fromCro, if_pos hpref]
    rcases hdec : bech32Decode s with e | hv
    · simp
    · rcases hv with ⟨h, vals⟩
      by_cases hl : vals.length = HASH_SIZE_ADDRESS
      · simp [hl]
      · simp [hl]

/-- Witness for `C9`: a 20-group payload under the `cro` prefix makes
`from_cro` panic, and a string with the longer human-readable part
`cros` never reaches the `InvalidPrefix` branch. -/
theorem from_cro_panics_on_bad_length_witness :
    Address.fromCro croShortAddr = FromCroResult.panicked ∧
    Address.fromCro crosExampleAddr ≠ FromCroResult.err CroAddressError.invalidPrefixError := by
  constructor
  · exact (from_cro_panics_on_bad_length croShortAddr "cro".data
      (List.replicate 20 0)).1 (by decide) (by rfl) (by decide)
  · exact (from_cro_panics_on_bad_length crosExampleAddr "cros".data
      (List.replicate 32 0)).2 (by decide)

/-! ## Protobuf transaction builder (src/tx_builder/grpc.rs)

The generated protobuf structs included by src/proto.rs are the
standard cosmos-sdk v1beta1 messages; their prost encodings are
modelled below (varint keys, length-delimited fields, default-valued
proto3 fields skipped) and validated byte-for-byte against the
repository's own grpc test vector. -/

/-- Protobuf varint (LEB128) encoding; the value itself bounds the
number of division steps, so it doubles as structural fuel. -/
def varintFuel : Nat → Nat → List Nat
  | 0, n => [n % 0x80]
  | fuel + 1, n =>
    if n < 0x80 then [n] else (n % 0x80 + 0x80) :: varintFuel fuel (n / 0x80)

/-- Protobuf varint encoding of an unsigned integer. -/
def varint (n : Nat) : List Nat := varintFuel n n

/-- Protobuf field key: field number and wire type. -/
def pbKey (fieldNum wireType : Nat) : List Nat := varint (fieldNum * 8 + wireType)

/-- A length-delimited protobuf field. -/
def pbLenField (fieldNum : Nat) (payload : List Nat) : List Nat :=
  pbKey fieldNum 2 ++ varint payload.length ++ payload

/-- A varint field, skipped at its proto3 default of zero. -/
def pbUintField (fieldNum n : Nat) : List Nat :=
  if n = 0 then [] else pbKey fieldNum 0 ++ varint n

/-- A string field, skipped when empty. -/
def pbStringField (fieldNum : Nat) (s : String) : List Nat :=
  if s = "" then [] else pbLenField fieldNum (utf8Bytes s)

/-- A bytes field, skipped when empty. -/
def pbBytesField (fieldNum : Nat) (b : List Nat) : List Nat :=
  if b = [] then [] else pbLenField fieldNum b

/-- `prost_types::Any`: type URL (field 1) and value bytes (field 2). -/
structure PbAny where
  typeUrl : String
  value : List Nat
deriving DecidableEq, Repr

/-- Prost encoding of an `Any`. -/
def encodeAny (a : PbAny) : List Nat :=
  pbStringField 1 a.typeUrl ++ pbBytesField 2 a.value

/-- `Coin` (cosmos.base.v1beta1): denom (1) and amount (2). -/
structure Coin where
  denom : String
  amount : String
deriving DecidableEq, Repr

/-- Prost encoding of a `Coin`. -/
def encodeCoin (c : Coin) : List Nat := pbStringField 1 c.denom ++ pbStringField 2 c.amount

/-- `Fee` (cosmos.tx.v1beta1): amount (repeated Coin, 1), gas_limit
(2), payer (3), granter (4). -/
structure GrpcFee where
  amount : List Coin
  gasLimit : Nat
  payer : String
  granter : String
deriving DecidableEq, Repr

/-- Prost encoding of a `Fee`. -/
def encodeGrpcFee (f : GrpcFee) : List Nat :=
  (f.amount.map (fun c => pbLenField 1 (encodeCoin c))).flatten ++
    pbUintField 2 f.gasLimit ++ pbStringField 3 f.payer ++ pbStringField 4 f.granter

/-- `MsgSend` (cosmos.bank.v1beta1): from_address (1), to_address (2),
amount (repeated Coin, 3). -/
structure MsgSend where
  fromAddress : String
  toAddress : String
  amount : List Coin
deriving DecidableEq, Repr

/-- Prost encoding of a `MsgSend`. -/
def encodeMsgSend (m : MsgSend) : List Nat :=
  pbStringField 1 m.fromAddress ++ pbStringField 2 m.toAddress ++
    (m.amount.map (fun c => pbLenField 3 (encodeCoin c))).flatten

/-- `TxBody` (cosmos.tx.v1beta1): messages (repeated Any, 1), memo (2),
timeout_height (3); the extension lists stay empty (`Default`). -/
def encodeTxBody (messages : List PbAny) (memo : String) (timeoutHeight : Nat) :
    List Nat :=
  (messages.map (fun m => pbLenField 1 (encodeAny m))).flatten ++
    pbStringField 2 memo ++ pbUintField 3 timeoutHeight

/-- `SignerInfo` with the source's fixed single-signer `ModeInfo`
(`Single { mode: 1 }`): public_key (Any, 1), mode_info (2),
sequence (3). -/
def encodeSignerInfo (publicKey : PbAny) (sequence : Nat) : List Nat :=
  pbLenField 1 (encodeAny publicKey) ++
    pbLenField 2 (pbLenField 1 (pbUintField 1 1)) ++ pbUintField 3 sequence

/-- `AuthInfo`: signer_infos (repeated SignerInfo, 1), fee (2, emitted
exactly when the option is set). -/
def encodeAuthInfo (publicKey : PbAny) (sequence : Nat) (fee : Option GrpcFee) :
    List Nat :=
  pbLenField 1 (encodeSignerInfo publicKey sequence) ++
    (match fee with
     | none => []
     | some f => pbLenField 2 (encodeGrpcFee f))

/-- `SignDoc`: body_bytes (1), auth_info_bytes (2), chain_id (3),
account_number (4). -/
def encodeSignDoc (bodyBytes authInfoBytes : List Nat) (chainId : String)
    (accountNumber : Nat) : List Nat :=
  pbBytesField 1 bodyBytes ++ pbBytesField 2 authInfoBytes ++
    pbStringField 3 chainId ++ pbUintField 4 accountNumber

/-- `TxRaw`: body_bytes (1), auth_info_bytes (2), signatures (repeated
bytes, 3). -/
def encodeTxRaw (bodyBytes authInfoBytes : List Nat)
    (signatures : List (List Nat)) : List Nat :=
  pbBytesField 1 bodyBytes ++ pbBytesField 2 authInfoBytes ++
    (signatures.map (fun s => pbLenField 3 s)).flatten

/-- The base64 standard alphabet. -/
def base64Chars : List Char :=
  "ABCDEFGHIJKLMNOPQRSTUVWXYZabcdefghijklmnopqrstuvwxyz0123456789+/".data

/-- Character of a 6-bit group. -/
def b64Char (n : Nat) : Char := base64Chars.getD n '?'

/-- Base64 encoding of a byte list, three bytes per group with `=`
padding. -/
def base64EncodeGo : List Nat → List Char
  | [] => []
  | [a] => [b64Char (a / 4), b64Char ((a % 4) * 16), '=', '=']
  | [a, b] => [b64Char (a / 4), b64Char ((a % 4) * 16 + b / 16), b64Char ((b % 16) * 4), '=']
  | a :: b :: c :: rest =>
    b64Char (a / 4) :: b64Char ((a % 4) * 16 + b / 16) ::
      b64Char ((b % 16) * 4 + c / 64) :: b64Char (c % 64) :: base64EncodeGo rest

/-- Base64 encoding (Rust `base64::encode`). -/
def base64Encode (bytes : List Nat) : String := ⟨base64EncodeGo bytes⟩

/-- Reverse base64 alphabet lookup. -/
def b64CharRev (c : Char) : Option Nat :=
  let i := List.indexOf c base64Chars
  if i < 64 then some i else none

/-- Base64 decoding, four characters per group with `=` padding;
`none` models the crate's decode error. -/
def base64DecodeGo : List Char → Option (List Nat)
  | [] => some []
  | a :: b :: c :: d :: rest =>
    (match b64CharRev a, b64CharRev b with
     | some va, some vb =>
       if c = '=' ∧ d = '=' ∧ rest = [] then some [va * 4 + vb / 16]
       else
         match b64CharRev c with
         | some vc =>
           if d = '=' ∧ rest = [] then
             some [va * 4 + vb / 16, (vb % 16) * 16 + vc / 4]
           else
             match b64CharRev d, base64DecodeGo rest with
             | some vd, some out =>
               some ([va * 4 + vb / 16, (vb % 16) * 16 + vc / 4, (vc % 4) * 64 + vd] ++ out)
             | _, _ => none
         | none => none
     | _, _ => none)
  | _ => none

/-- Base64 decoding (Rust `base64::decode`). -/
def base64Decode (s : String) : Option (List Nat) := base64DecodeGo s.data

/-- The signer capability used by the protobuf builder: the 33-byte
compressed public key, the signer's bech32 address string, and the
signing function (`KeyService::sign`, src/key_service.rs lines 49-59,
deterministic ECDSA returning a base64 string). -/
structure GrpcSigner where
  publicKeyBytes : List Nat
  address : String
  sign : List Nat → String

/-- `TxBuilder` (src/tx_builder/grpc.rs lines 11-20).  The `Msg`
wrapper of the grpc message module (absent from the sources) carries a
`prost_types::Any`, modelled by the `Any` itself. -/
structure GrpcTxBuilder where
  keyService : GrpcSigner
  chainId : String
  messages : List PbAny
  memo : Option String
  timeoutHeight : Nat
  accountNumber : Nat
  sequence : Nat
  fee : Option GrpcFee

/-- `TxBuilder::new` (src/tx_builder/grpc.rs lines 29-46). -/
def GrpcTxBuilder.mkNew (keyService : GrpcSigner) (chainId : String)
    (memo : Option String) (timeoutHeight : Nat) (fee : Option GrpcFee) :
    GrpcTxBuilder :=
  { keyService := keyService, chainId := chainId, messages := [], memo := memo,
    timeoutHeight := timeoutHeight, accountNumber := 0, sequence := 0, fee := fee }

/-- `TxBuilder::set_account_number`. -/
def GrpcTxBuilder.setAccountNumber (b : GrpcTxBuilder) (accountNumber : Nat) :
    GrpcTxBuilder := { b with accountNumber := accountNumber }

/-- `TxBuilder::set_sequence`. -/
def GrpcTxBuilder.setSequence (b : GrpcTxBuilder) (sequence : Nat) : GrpcTxBuilder :=
  { b with sequence := sequence }

/-- `TxBuilder::add_message`. -/
def GrpcTxBuilder.addMessage (b : GrpcTxBuilder) (m : PbAny) : GrpcTxBuilder :=
  { b with messages := b.messages ++ [m] }

/-- `TxBuilder::pk_any` (lines 63-72): the compressed key bytes are
prost-encoded as a bytes wrapper (field 1) under the secp256k1 type
URL. -/
def GrpcTxBuilder.pkAny (b : GrpcTxBuilder) : PbAny :=
  { typeUrl := "/cosmos.crypto.secp256k1.PubKey",
    value := pbBytesField 1 b.keyService.publicKeyBytes }

/-- `TxBuilder::raw_tx_body` (lines 74-86). -/
def GrpcTxBuilder.rawTxBody (b : GrpcTxBuilder) : List Nat :=
  encodeTxBody b.messages (b.memo.getD "") b.timeoutHeight

/-- The encoded `TxBuilder::auth_info` (lines 88-107). -/
def GrpcTxBuilder.authInfoBytes (b : GrpcTxBuilder) : List Nat :=
  encodeAuthInfo b.pkAny b.sequence b.fee

/-- The encoded `TxBuilder::sign_doc` (lines 125-135). -/
def GrpcTxBuilder.signDocBytes (b : GrpcTxBuilder) : List Nat :=
  encodeSignDoc b.rawTxBody b.authInfoBytes b.chainId b.accountNumber

/-- `TxBuilder::create_msg` (lines 109-123). -/
def GrpcTxBuilder.createMsg (b : GrpcTxBuilder) (toAddress : String) (amount : Coin) :
    PbAny :=
  { typeUrl := "/cosmos.bank.v1beta1.MsgSend",
    value := encodeMsgSend
      { fromAddress := b.keyService.address, toAddress := toAddress,
        amount := [amount] } }

/-- `TxBuilder::build` (lines 137-154): sign the encoded sign document,
base64-decode the signature, assemble the raw transaction with that one
signature, and return it base64-encoded.  `build` takes `&self`; the
returned builder mirrors the (unchanged) receiver. -/
def GrpcTxBuilder.build (b : GrpcTxBuilder) : Except String String × GrpcTxBuilder :=
  (match base64Decode (b.keyService.sign b.signDocBytes) with
   | none => Except.error "invalid base64 signature"
   | some signature =>
     Except.ok (base64Encode (encodeTxRaw b.rawTxBody b.authInfoBytes [signature])), b)

/-- The protobuf-path signer of the repository's own grpc test: the
test keypair's compressed public key, its address, and the (constant
over this sign document) base64 signature the test expects from the
deterministic software signer. -/
def exampleGrpcSigner : GrpcSigner :=
  { publicKeyBytes := [2, 123, 75, 249, 76, 76, 200, 159, 77, 103, 208, 198, 46, 157,
      175, 237, 173, 221, 149, 44, 98, 53, 115, 26, 34, 220, 142, 93, 36, 112, 242, 38, 34],
    address := "cro1u9q8mfpzhyv2s43js7l5qseapx5kt3g2rf7ppf",
    sign := fun _ =>
      "jlqBo5nxRbq2RIYpjo4+gjevBEDALw+IjmqEPu4igfIgD8l4/CR3vmetHvhpyeQaYZ/bJJfehT6Z/RpxofJnxA==" }

/-- The fee of the repository's grpc test. -/
def exampleGrpcFee : GrpcFee :=
  { amount := [{ denom := "basecro", amount := "10000" }],
    gasLimit := 300000, payer := "", granter := "" }

/-- The builder of the repository's grpc test: chain `test`, timeout
height 1, account number 9, sequence 4, one send message. -/
def exampleGrpcBuilder : GrpcTxBuilder :=
  let b0 := (((GrpcTxBuilder.mkNew exampleGrpcSigner "test" none 1
    (some exampleGrpcFee)).setAccountNumber 9).setSequence 4)
  b0.addMessage (b0.createMsg "cro1fj6jpmuykvra4kxrw0cp20e4vx4r8eda8q3yn9"
    { denom := "basecro", amount := "100000000" })

/-- Validation against the repository's own grpc test vector: the
modelled prost encodings and base64 reproduce the hard-coded
`pk_any` value, `auth_info_bytes` and final broadcast string of the
src/tx_builder/grpc.rs test byte-for-byte. -/
theorem grpc_tx_matches_repo_test :
    exampleGrpcBuilder.pkAny.value =
      [10, 33, 2, 123, 75, 249, 76, 76, 200, 159, 77, 103, 208, 198, 46, 157, 175,
       237, 173, 221, 149, 44, 98, 53, 115, 26, 34, 220, 142, 93, 36, 112, 242, 38, 34] ∧
    exampleGrpcBuilder.authInfoBytes =
      [10, 80, 10, 70, 10, 31, 47, 99, 111, 115, 109, 111, 115, 46, 99, 114, 121, 112,
       116, 111, 46, 115, 101, 99, 112, 50, 53, 54, 107, 49, 46, 80, 117, 98, 75, 101,
       121, 18, 35, 10, 33, 2, 123, 75, 249, 76, 76, 200, 159, 77, 103, 208, 198, 46,
       157, 175, 237, 173, 221, 149, 44, 98, 53, 115, 26, 34, 220, 142, 93, 36, 112,
       242, 38, 34, 18, 4, 10, 2, 8, 1, 24, 4, 18, 22, 10, 16, 10, 7, 98, 97, 115,
       101, 99, 114, 111, 18, 5, 49, 48, 48, 48, 48, 16, 224, 167, 18] ∧
    exampleGrpcBuilder.build.1 = Except.ok
      "CpMBCo4BChwvY29zbW9zLmJhbmsudjFiZXRhMS5Nc2dTZW5kEm4KKmNybzF1OXE4bWZwemh5djJzNDNqczdsNXFzZWFweDVrdDNnMnJmN3BwZhIqY3JvMWZqNmpwbXV5a3ZyYTRreHJ3MGNwMjBlNHZ4NHI4ZWRhOHEzeW45GhQKB2Jhc2Vjcm8SCTEwMDAwMDAwMBgBEmoKUApGCh8vY29zbW9zLmNyeXB0by5zZWNwMjU2azEuUHViS2V5EiMKIQJ7S/lMTMifTWfQxi6dr+2t3ZUsYjVzGiLcjl0kcPImIhIECgIIARgEEhYKEAoHYmFzZWNybxIFMTAwMDAQ4KcSGkCOWoGjmfFFurZEhimOjj6CN68EQMAvD4iOaoQ+7iKB8iAPyXj8JHe+Z60e+GnJ5Bphn9skl96FPpn9GnGh8mfE" := by
  exact ⟨rfl, rfl, rfl⟩

/-- `C10`: the protobuf `build` takes the builder by shared reference
and leaves every field unchanged, so two successive `build` calls on
the same builder (with the deterministic software signer) return the
same base64 transaction string; and every successful output is the
encoding of a raw transaction whose signature list is exactly one
signature. -/
theorem grpc_build_pure_single_signature (b : GrpcTxBuilder) :
    (b.build.2 = b) ∧
    (b.build.2.build = b.build) ∧
    (∀ s, b.build.1 = Except.ok s →
      ∃ sig, base64Decode (b.keyService.sign b.signDocBytes) = some sig ∧
        s = base64Encode (encodeTxRaw b.rawTxBody b.authInfoBytes [sig])) := by
  refine ⟨rfl, rfl, ?_⟩
  intro s hs
  have hs2 : (match base64Decode (b.keyService.sign b.signDocBytes) with
    | none => Except.error "invalid base64 signature"
    | some signature =>
      Except.ok (base64Encode (encodeTxRaw b.rawTxBody b.authInfoBytes [signature]))) =
      Except.ok s := hs
  rcases hdec : base64Decode (b.keyService.sign b.signDocBytes) with _ | sig
  · rw [hdec] at hs2
    cases hs2
  · rw [hdec] at hs2
    injection hs2 with hs2
    exact ⟨sig, rfl, hs2.symm⟩

/-- Witness for `C10` at the repository's grpc test builder. -/
theorem grpc_build_pure_single_signature_witness :
    exampleGrpcBuilder.build.2 = exampleGrpcBuilder ∧
    exampleGrpcBuilder.build.2.build = exampleGrpcBuilder.build ∧
    ∃ sig, base64Decode
        (exampleGrpcBuilder.keyService.sign exampleGrpcBuilder.signDocBytes) = some sig ∧
      "CpMBCo4BChwvY29zbW9zLmJhbmsudjFiZXRhMS5Nc2dTZW5kEm4KKmNybzF1OXE4bWZwemh5djJzNDNqczdsNXFzZWFweDVrdDNnMnJmN3BwZhIqY3JvMWZqNmpwbXV5a3ZyYTRreHJ3MGNwMjBlNHZ4NHI4ZWRhOHEzeW45GhQKB2Jhc2Vjcm8SCTEwMDAwMDAwMBgBEmoKUApGCh8vY29zbW9zLmNyeXB0by5zZWNwMjU2azEuUHViS2V5EiMKIQJ7S/lMTMifTWfQxi6dr+2t3ZUsYjVzGiLcjl0kcPImIhIECgIIARgEEhYKEAoHYmFzZWNybxIFMTAwMDAQ4KcSGkCOWoGjmfFFurZEhimOjj6CN68EQMAvD4iOaoQ+7iKB8iAPyXj8JHe+Z60e+GnJ5Bphn9skl96FPpn9GnGh8mfE"
        = base64Encode (encodeTxRaw exampleGrpcBuilder.rawTxBody
            exampleGrpcBuilder.authInfoBytes [sig]) := by
  refine ⟨(grpc_build_pure_single_signature exampleGrpcBuilder).1,
    (grpc_build_pure_single_signature exampleGrpcBuilder).2.1,
    (grpc_build_pure_single_signature exampleGrpcBuilder).2.2 _ rfl⟩
